import Mathlib

/-!
# Billing report import: fingerprint check and ingest coordination

A shallow embedding of `billing/checker.go` and `billing/manager.go`.

* Go strings are byte sequences (`GoString`), so that the slice expression
  `etag[1 : len(etag)-1]` keeps its byte-level meaning.
* A Go `error` result is an `Option GoError` (`none` is `nil`).
* A run-time panic (index or slice out of range, nil dereference) is the
  `Run.panic` outcome, distinct from a returned error.
* Calls on the external collaborators (key-value store, blob store,
  downloader, unzip, loader, injector) are recorded in `World.trace`;
  the `fmt.Printf` progress lines are not modelled.
-/

namespace Billing

/-- A Go string: a finite sequence of bytes. -/
abbrev GoString := List UInt8

/-- The bytes of a string literal (UTF-8). -/
def str (s : String) : GoString := s.toList.flatMap String.utf8EncodeChar

/-- A Go `error` value: either built by `fmt.Errorf` with the given message,
or returned by a collaborator outside this package. -/
inductive GoError where
  | Errorf (msg : GoString)
  | External (code : Nat)
  deriving DecidableEq, Repr

/-- Outcome of running a Go function: it returns, or the goroutine panics. -/
inductive Run (α : Type) where
  | ret (a : α)
  | panic
  deriving DecidableEq, Repr

/-- Sequencing of runs: a panic aborts what follows. -/
def Run.bind {α β : Type} (r : Run α) (f : α → Run β) : Run β :=
  match r with
  | Run.ret a => f a
  | Run.panic => Run.panic

/-- Go index expression `xs[i]`: panics when out of range. -/
def index {α : Type} (xs : List α) (i : Nat) : Run α :=
  match xs.get? i with
  | some a => Run.ret a
  | none => Run.panic

/-- Go pointer dereference `*p`: panics on `nil`. -/
def deref {α : Type} (p : Option α) : Run α :=
  match p with
  | some a => Run.ret a
  | none => Run.panic

/-- Go string slice expression `s[lo:hi]`: in range when
`0 <= lo <= hi <= len(s)`, a panic otherwise. -/
def sliceStr (s : GoString) (lo hi : Int) : Run GoString :=
  if 0 ≤ lo ∧ lo ≤ hi ∧ hi ≤ (s.length : Int) then
    Run.ret ((s.drop lo.toNat).take (hi.toNat - lo.toNat))
  else
    Run.panic

/-! ## Constants of `manager.go` -/

def billingReportTableName : GoString := str "billing-reports"
def billingReportNameField : GoString := str "name"
def billingReportMd5Field : GoString := str "md5"
def billingRecordTableName : GoString := str "billing-records"

def filenamePattern : GoString :=
  str "-aws-billing-detailed-line-items-with-resources-and-tags-"
def fileExtension : GoString := str ".csv.zip"
def downloadPath : GoString := str "/tmp/billing-reports-download/"
def unzipPath : GoString := str "/tmp/billing-reports-unzip/"

/-! ## Data exchanged with the stores -/

/-- The part of `dynamodb.AttributeValue` that is read: its `S *string`. -/
structure AttributeValue where
  S : Option GoString
  deriving DecidableEq, Repr

/-- The type `map[string]*dynamodb.AttributeValue` as an association list. -/
abbrev Item := List (GoString × Option AttributeValue)

/-- The part of `dynamodb.GetItemOutput` that is read. -/
structure GetItemOutput where
  Item : Item
  deriving DecidableEq, Repr

/-- The part of `s3.Object` that is read: its `ETag *string`. -/
structure Object where
  ETag : Option GoString
  deriving DecidableEq, Repr

/-- The part of `s3.ListObjectsOutput` that is read: `Contents []*Object`
(a `nil` slice and an empty one are both the empty list). -/
structure ListObjectsOutput where
  Contents : List (Option Object)
  deriving DecidableEq, Repr

/-- A recorded call on an external collaborator, with its arguments. -/
inductive Call where
  | GetItem (table keyField key : GoString)
  | ListObjects (bucket pfx : GoString)
  | Download (bucket filename dest : GoString)
  | Unzip (file dest : GoString)
  | ProcessFile (workers : Nat) (reportName filePath : GoString)
  | CreateReport (name hash : GoString)
  deriving DecidableEq, Repr

/-- What a run acts on: the key-value store (`kv`, holding the
`billing-reports` and `billing-records` tables), the local scratch files
(`fs`), and the calls made so far. -/
structure World (κ φ : Type) where
  kv : κ
  fs : φ
  trace : List Call
  deriving DecidableEq, Repr

/-- Record one call. -/
def World.log {κ φ : Type} (w : World κ φ) (c : Call) : World κ φ :=
  { w with trace := w.trace ++ [c] }

/-- The collaborators of the package, whose code lies outside it. Go results
`(value, error)` are pairs.

* `GetAccountID`: `raws.Connector.GetAccountID`; the account id is set once,
  when the connector is built.
* `ListObjects`: `raws.AWSReader.ListObjects`, by bucket and prefix; it
  yields one `*s3.ListObjectsOutput` per region of the connector. The package
  never writes to the blob store, so the listing is the same throughout the
  runs made under one environment.
* `GetItem`: `dynamodb.DynamoDB.GetItem`, by table, key attribute and key; it
  reads the key-value store.
* `Download`: `NewDownloader(conn, bucket, filename).Download(dest)`; it
  writes a scratch file and returns its path.
* `Unzip`: `Unzip(file, dest)`; it writes a scratch file and returns its path.
* `ProcessFile`: `NewLoader(injector, workers).ProcessFile(name, path)`; it
  writes to `billing-records`. The first component is how the load ended (an
  error when it failed), the second the key-value store it leaves.
* `CreateReport`: `NewInjector(svc).CreateReport(name, hash)`; it writes to
  `billing-reports`. -/
structure Env (κ φ : Type) where
  GetAccountID : GoString
  ListObjects : GoString → GoString → List (Option ListObjectsOutput) × Option GoError
  GetItem : κ → GoString → GoString → GoString → Option GetItemOutput × Option GoError
  Download : φ → GoString → GoString → GoString → (GoString × Option GoError) × φ
  Unzip : φ → GoString → GoString → (GoString × Option GoError) × φ
  ProcessFile : κ → φ → Nat → GoString → GoString → Option GoError × κ
  CreateReport : κ → GoString → GoString → Option GoError × κ

/-! ## `checker.go` -/

structure billingChecker where
  s3Bucket : GoString
  filename : GoString
  oldMd5 : GoString
  newMd5 : GoString
  deriving DecidableEq, Repr

def NewChecker (bucket filename : GoString) : billingChecker :=
  { s3Bucket := bucket, filename := filename, oldMd5 := [], newMd5 := [] }

/-- The `fmt.Errorf` message of `getS3Entry` for a listing of `n` results. -/
def tooManyObjects (n : Nat) : GoError :=
  GoError.Errorf (str "Found too many objects matching (" ++ str (toString n) ++ str ")")

def noContents : GoError :=
  GoError.Errorf (str "s3 entry doesn\x27t have \x27Contents\x27 attribute.")

def noMd5Field : GoError :=
  GoError.Errorf (str "No \x27" ++ billingReportMd5Field ++ str "\x27 field present for the entity.")

def getS3Entry {κ φ : Type} (E : Env κ φ) (c : billingChecker) (w : World κ φ) :
    Run (billingChecker × Option GoError × World κ φ) :=
  let w1 := w.log (Call.ListObjects c.s3Bucket c.filename)
  match E.ListObjects c.s3Bucket c.filename with
  | (_, some err) => Run.ret (c, some err, w1)
  | (objectsOutput, none) =>
    if objectsOutput.length ≠ 1 then
      Run.ret (c, some (tooManyObjects objectsOutput.length), w1)
    else
      (index objectsOutput 0).bind fun p0 =>
      (deref p0).bind fun out0 =>
      if out0.Contents.length = 0 then
        Run.ret (c, some noContents, w1)
      else
        (index out0.Contents 0).bind fun q0 =>
        (deref q0).bind fun obj0 =>
        (deref obj0.ETag).bind fun etag =>
        (sliceStr etag 1 ((etag.length : Int) - 1)).bind fun s =>
        Run.ret ({ c with newMd5 := s }, none, w1)

def getDynamoEntry {κ φ : Type} (E : Env κ φ) (c : billingChecker) (w : World κ φ) :
    Run (billingChecker × Option GoError × World κ φ) :=
  let w1 := w.log (Call.GetItem billingReportTableName billingReportNameField c.filename)
  match E.GetItem w.kv billingReportTableName billingReportNameField c.filename with
  | (_, some err) => Run.ret (c, some err, w1)
  | (none, none) => Run.ret (c, none, w1)
  | (some result, none) =>
    if result.Item.length = 0 then
      Run.ret (c, none, w1)
    else
      match result.Item.lookup billingReportMd5Field with
      | some val =>
        (deref val).bind fun v =>
        (deref v.S).bind fun s =>
        Run.ret ({ c with oldMd5 := s }, none, w1)
      | none => Run.ret (c, some noMd5Field, w1)

def Check {κ φ : Type} (E : Env κ φ) (c : billingChecker) (w : World κ φ) :
    Run (billingChecker × (Bool × Option GoError) × World κ φ) :=
  (getDynamoEntry E c w).bind fun (c1, err, w1) =>
  match err with
  | some e => Run.ret (c1, (false, some e), w1)
  | none =>
    (getS3Entry E c1 w1).bind fun (c2, err, w2) =>
    match err with
    | some e => Run.ret (c2, (false, some e), w2)
    | none =>
      if c2.newMd5 = c2.oldMd5 then
        Run.ret (c2, (false, none), w2)
      else
        Run.ret (c2, (true, none), w2)

def AlreadyPresent (c : billingChecker) : Bool × GoString :=
  if c.oldMd5 = c.newMd5 then
    (true, c.newMd5)
  else
    (false, c.newMd5)

/-! ## `manager.go` -/

/-- The value built by `NewDownloader(conn, bucket, filename)`. -/
structure Downloader where
  bucket : GoString
  filename : GoString
  deriving DecidableEq, Repr

/-- The value built by `NewLoader(injector, routines)`. -/
structure Loader where
  routines : Nat
  deriving DecidableEq, Repr

/-- The fields of `BillingManager` that `Import` assigns; the connectors and
account settings are in `Env`. A `nil` field is `none`. -/
structure BillingManager where
  date : GoString
  checker : Option billingChecker
  downloader : Option Downloader
  loader : Option Loader
  injector : Bool
  deriving DecidableEq, Repr

def getS3Filename {κ φ : Type} (E : Env κ φ) (m : BillingManager) : GoString :=
  E.GetAccountID ++ filenamePattern ++ m.date ++ fileExtension

/-- The method `BillingManager.Import`. The result of the `ProcessFile` call
is dropped, as in the call statement of the source. -/
def Import {κ φ : Type} (E : Env κ φ) (m : BillingManager) (date bucket : GoString)
    (w : World κ φ) : Run (BillingManager × Option GoError × World κ φ) :=
  let m := { m with date := date }
  (Check E (NewChecker bucket (getS3Filename E m)) w).bind fun (chk, (needImport, err), w) =>
  let m := { m with checker := some chk }
  match err with
  | some e => Run.ret (m, some e, w)
  | none =>
    if needImport = false then
      Run.ret (m, none, w)
    else
      let m := { m with downloader := some ⟨bucket, getS3Filename E m⟩ }
      let w := w.log (Call.Download bucket (getS3Filename E m) downloadPath)
      match E.Download w.fs bucket (getS3Filename E m) downloadPath with
      | ((_, some e), fs) => Run.ret (m, some e, { w with fs := fs })
      | ((downloadedFile, none), fs) =>
        let w := { w with fs := fs }
        let w := w.log (Call.Unzip downloadedFile unzipPath)
        match E.Unzip w.fs downloadedFile unzipPath with
        | ((_, some e), fs) => Run.ret (m, some e, { w with fs := fs })
        | ((filePath, none), fs) =>
          let w := { w with fs := fs }
          let m := { m with injector := true }
          let m := { m with loader := some ⟨2⟩ }
          let w := w.log (Call.ProcessFile 2 (getS3Filename E m) filePath)
          let w := { w with kv := (E.ProcessFile w.kv w.fs 2 (getS3Filename E m) filePath).2 }
          let hash := (AlreadyPresent chk).2
          let w := w.log (Call.CreateReport (getS3Filename E m) hash)
          match E.CreateReport w.kv (getS3Filename E m) hash with
          | (some e, kv) => Run.ret (m, some e, { w with kv := kv })
          | (none, kv) => Run.ret (m, none, { w with kv := kv })

/-! ## Specification-side definitions and concrete instances -/

/-- The name a recorded call is made under: the metadata key, the listing
prefix, the downloaded object, the loaded report, the committed row. An
`Unzip` call takes a local path and no report name. -/
def Call.reportName : Call → Option GoString
  | Call.GetItem _ _ key => some key
  | Call.ListObjects _ pfx => some pfx
  | Call.Download _ filename _ => some filename
  | Call.Unzip _ _ => none
  | Call.ProcessFile _ reportName _ => some reportName
  | Call.CreateReport name _ => some name

/-- Whether a recorded call is a `CreateReport`. -/
def Call.isCreateReport : Call → Bool
  | Call.CreateReport _ _ => true
  | _ => false

/-- Whether a recorded call is one of the stages after the check:
`Download`, `Unzip`, `ProcessFile` or `CreateReport`. -/
def Call.isStage : Call → Bool
  | Call.GetItem _ _ _ => false
  | Call.ListObjects _ _ => false
  | _ => true

/-- A `billing-reports` table in memory: report name to row. -/
abbrev Reports := List (GoString × Item)

/-- Modelled from the spec: `getItem(table, key) → row|null` of the key-value
store, on the in-memory `billing-reports` table. The store client itself is
outside the sources. -/
def memGetItem (kv : Reports) (_table _keyField key : GoString) :
    Option GetItemOutput × Option GoError :=
  match kv.lookup key with
  | some item => (some ⟨item⟩, none)
  | none => (some ⟨[]⟩, none)

/-- Modelled from the spec: `createReport(name, fingerprint)` upserts the
ReportEntry row, with key attribute `name` and attribute `md5`, into
`billing-reports`. `Injector.CreateReport` is outside the sources. -/
def memCreateReport (kv : Reports) (name hash : GoString) : Option GoError × Reports :=
  (none,
    (name, [(billingReportNameField, some ⟨some name⟩), (billingReportMd5Field, some ⟨some hash⟩)])
      :: kv.filter (fun r => r.1 != name))

/-- Modelled from the spec: `createReport(name, fingerprint)` upserts the
ReportEntry row, so that a `GetItem` for `name` on the store it leaves finds a
row whose `md5` attribute is the committed fingerprint. `Injector.CreateReport`
is outside the sources; this is the law an environment has to satisfy. -/
def CreateReportUpserts {κ φ : Type} (E : Env κ φ) : Prop :=
  ∀ (kv kv1 : κ) (name hash : GoString), E.CreateReport kv name hash = (none, kv1) →
    ∃ item : Item,
      E.GetItem kv1 billingReportTableName billingReportNameField name = (some ⟨item⟩, none) ∧
      item.lookup billingReportMd5Field = some (some ⟨some hash⟩)

/-- An in-memory environment: account `111`, a fixed listing `outs` with
error `lerr`, the in-memory `billing-reports` table, a downloader and an unzip
that return a path under the destination, and a loader that reports `loadErr`
and leaves the table as it is. -/
def memEnv (outs : List (Option ListObjectsOutput)) (lerr loadErr : Option GoError) :
    Env Reports Unit where
  GetAccountID := str "111"
  ListObjects := fun _ _ => (outs, lerr)
  GetItem := memGetItem
  Download := fun fs _ filename dest => ((dest ++ filename, none), fs)
  Unzip := fun fs file _ => ((file ++ str ".csv", none), fs)
  ProcessFile := fun kv _ _ _ _ => (loadErr, kv)
  CreateReport := memCreateReport

/-- A listing of one result holding the objects with the given ETags. -/
def listing (etags : List GoString) : List (Option ListObjectsOutput) :=
  [some ⟨etags.map fun e => some ⟨some e⟩⟩]

/-- The composed report name of account `111` for `2024-03`. -/
def demoName : GoString :=
  str "111-aws-billing-detailed-line-items-with-resources-and-tags-2024-03.csv.zip"

/-- A manager as `NewManager` leaves it: no date, no collaborators yet. -/
def newManager : BillingManager :=
  { date := [], checker := none, downloader := none, loader := none, injector := false }

/-- A world with the given `billing-reports` table and no call made. -/
def memWorld (kv : Reports) : World Reports Unit := { kv := kv, fs := (), trace := [] }

/-- A `billing-reports` row for `name` with fingerprint `md5`. -/
def reportRow (name md5 : GoString) : GoString × Item :=
  (name, [(billingReportNameField, some ⟨some name⟩), (billingReportMd5Field, some ⟨some md5⟩)])

/-- The two lookups of a check of `demoName` in bucket `b`. -/
def lookupCalls : List Call :=
  [Call.GetItem billingReportTableName billingReportNameField demoName,
   Call.ListObjects (str "b") demoName]

/-- The calls of a full import of `demoName` from bucket `b` in `memEnv`,
committing `hash`. -/
def importCalls (hash : GoString) : List Call :=
  [Call.GetItem billingReportTableName billingReportNameField demoName,
   Call.ListObjects (str "b") demoName,
   Call.Download (str "b") demoName downloadPath,
   Call.Unzip (downloadPath ++ demoName) unzipPath,
   Call.ProcessFile 2 demoName (downloadPath ++ demoName ++ str ".csv"),
   Call.CreateReport demoName hash]

/-- The manager after a full import of `2024-03` from bucket `b` in `memEnv`,
with the stored fingerprint `old` and the current one `new`. -/
def importedManager (old new : GoString) : BillingManager :=
  { date := str "2024-03", checker := some ⟨str "b", demoName, old, new⟩,
    downloader := some ⟨str "b", demoName⟩, loader := some ⟨2⟩, injector := true }

/-- A key-value store in memory with both tables: the rows of
`billing-reports` and the line items of `billing-records`. -/
structure Store where
  reports : Reports
  records : List Item
  deriving DecidableEq, Repr

/-- The error of kind `WriteTimeout`. -/
def writeTimeout : GoError := GoError.Errorf (str "WriteTimeout")

/-- Modelled from the spec: `writeBatch(items)` of the BatchInjector, which is
outside the sources, on an in-memory record table that takes `cap` line items
in all. A batch that fits is appended; one that does not is refused with
`WriteTimeout` and the table stays as it is. -/
def memWriteBatch (cap : Nat) (records batch : List Item) : Option GoError × List Item :=
  if records.length + batch.length ≤ cap then
    (none, records ++ batch)
  else
    (some writeTimeout, records)

/-- Modelled from the spec: `Loader.ProcessFile`, which is outside the sources.
The batches of the file go to `writeBatch` in turn; "the first worker error
cancels remaining work; the partial state in the record table is left
as-is". The result is how the load ended and the record table it leaves. -/
def specProcessFile (writeBatch : List Item → List Item → Option GoError × List Item) :
    List (List Item) → List Item → Option GoError × List Item
  | [], records => (none, records)
  | batch :: more, records =>
    match writeBatch records batch with
    | (some e, records1) => (some e, records1)
    | (none, records1) => specProcessFile writeBatch more records1

/-- An in-memory environment whose loader is `specProcessFile`: account `111`,
a fixed listing `outs`, the in-memory tables, a downloader and an unzip that
return a path under the destination, a report file made of `batches`, and a
record table of capacity `cap`. -/
def loadEnv (outs : List (Option ListObjectsOutput)) (cap : Nat) (batches : List (List Item)) :
    Env Store Unit where
  GetAccountID := str "111"
  ListObjects := fun _ _ => (outs, none)
  GetItem := fun kv table keyField key => memGetItem kv.reports table keyField key
  Download := fun fs _ filename dest => ((dest ++ filename, none), fs)
  Unzip := fun fs file _ => ((file ++ str ".csv", none), fs)
  ProcessFile := fun kv _ _ _ _ =>
    ((specProcessFile (memWriteBatch cap) batches kv.records).1,
     { kv with records := (specProcessFile (memWriteBatch cap) batches kv.records).2 })
  CreateReport := fun kv name hash =>
    ((memCreateReport kv.reports name hash).1,
     { kv with reports := (memCreateReport kv.reports name hash).2 })

/-- A line item with the columns `RecordId` and `Cost`. -/
def lineItem (id cost : GoString) : Item :=
  [(str "RecordId", some ⟨some id⟩), (str "Cost", some ⟨some cost⟩)]

/-- A report file of four rows in two batches. -/
def twoBatches : List (List Item) :=
  [[lineItem (str "r1") (str "1.0"), lineItem (str "r2") (str "2.0")],
   [lineItem (str "r3") (str "3.0"), lineItem (str "r4") (str "4.0")]]

/-! ## Helper lemmas -/

variable {κ φ : Type}

set_option maxRecDepth 100000

@[simp] theorem Run.bind_ret {α β : Type} (a : α) (f : α → Run β) : (Run.ret a).bind f = f a := rfl
@[simp] theorem Run.bind_panic {α β : Type} (f : α → Run β) : (Run.panic : Run α).bind f = Run.panic := rfl

theorem sliceStr_inner (e : GoString) :
    sliceStr e 1 ((e.length : Int) - 1) =
      if 2 ≤ e.length then Run.ret ((e.drop 1).take (e.length - 2)) else Run.panic := by
  unfold sliceStr
  by_cases h : 2 ≤ e.length
  · have h1 : (0:Int) ≤ 1 ∧ (1:Int) ≤ (e.length : Int) - 1 ∧ (e.length : Int) - 1 ≤ (e.length : Int) := by omega
    have h2 : ((e.length : Int) - 1).toNat - (1 : Int).toNat = e.length - 2 := by omega
    rw [if_pos h1, if_pos h, h2]; rfl
  · have h1 : ¬ ((0:Int) ≤ 1 ∧ (1:Int) ≤ (e.length : Int) - 1 ∧ (e.length : Int) - 1 ≤ (e.length : Int)) := by omega
    rw [if_neg h1, if_neg h]

theorem sliceStr_quoted (s : GoString) :
    sliceStr (str "\"" ++ s ++ str "\"") 1 (((str "\"" ++ s ++ str "\"").length : Int) - 1) = Run.ret s := by
  rw [sliceStr_inner]
  have hq : str "\"" = [34] := by decide
  simp [hq]


/-- What `getS3Entry` does on a listing of one result whose first content
entry carries the ETag `e`. -/
theorem getS3Entry_of_etag (E : Env κ φ) (c : billingChecker) (w : World κ φ)
    (out : ListObjectsOutput) (e : GoString) (rest : List (Option Object))
    (hl : E.ListObjects c.s3Bucket c.filename = ([some out], none))
    (hc : out.Contents = some ⟨some e⟩ :: rest) :
    getS3Entry E c w =
      if 2 ≤ e.length then
        Run.ret ({ c with newMd5 := (e.drop 1).take (e.length - 2) }, none,
          w.log (Call.ListObjects c.s3Bucket c.filename))
      else Run.panic := by
  unfold getS3Entry
  simp only [hl]
  simp [index, deref, hc, sliceStr_inner]
  split <;> simp

/-- The checker fields that `getDynamoEntry` leaves alone, and the call it records. -/
theorem getDynamoEntry_frame (E : Env κ φ) (c c1 : billingChecker) (w w1 : World κ φ)
    (err : Option GoError) (h : getDynamoEntry E c w = Run.ret (c1, err, w1)) :
    c1.s3Bucket = c.s3Bucket ∧ c1.filename = c.filename ∧ c1.newMd5 = c.newMd5 ∧
    w1 = w.log (Call.GetItem billingReportTableName billingReportNameField c.filename) := by
  unfold getDynamoEntry at h
  split at h
  · simp at h; obtain ⟨rfl, _, rfl⟩ := h; simp
  · simp at h; obtain ⟨rfl, _, rfl⟩ := h; simp
  · split at h
    · simp at h; obtain ⟨rfl, _, rfl⟩ := h; simp
    · split at h
      · rename_i val _
        cases val with
        | none => simp [deref] at h
        | some v =>
          cases hS : v.S with
          | none => simp [deref, hS] at h
          | some s => simp [deref, hS] at h; obtain ⟨rfl, _, rfl⟩ := h; simp
      · simp at h; obtain ⟨rfl, _, rfl⟩ := h; simp

/-- The checker fields that `getS3Entry` leaves alone, and the call it records. -/
theorem getS3Entry_frame (E : Env κ φ) (c c1 : billingChecker) (w w1 : World κ φ)
    (err : Option GoError) (h : getS3Entry E c w = Run.ret (c1, err, w1)) :
    c1.s3Bucket = c.s3Bucket ∧ c1.filename = c.filename ∧ c1.oldMd5 = c.oldMd5 ∧
    w1 = w.log (Call.ListObjects c.s3Bucket c.filename) := by
  unfold getS3Entry at h
  split at h
  · simp at h; obtain ⟨rfl, _, rfl⟩ := h; simp
  · split at h
    · simp at h; obtain ⟨rfl, _, rfl⟩ := h; simp
    · cases h0 : index ‹List (Option ListObjectsOutput)› 0 with
      | panic => simp [h0] at h
      | ret p0 =>
        cases p0 with
        | none => simp [h0, deref] at h
        | some out0 =>
          simp only [h0, Run.bind_ret, deref] at h
          split at h
          · simp at h; obtain ⟨rfl, _, rfl⟩ := h; simp
          · cases h1 : index out0.Contents 0 with
            | panic => simp [h1] at h
            | ret q0 =>
              cases q0 with
              | none => simp [h1] at h
              | some obj0 =>
                cases hE : obj0.ETag with
                | none => simp [h1, hE] at h
                | some etag =>
                  simp only [h1, hE, Run.bind_ret] at h
                  cases hs : sliceStr etag 1 ((etag.length : Int) - 1) with
                  | panic => simp [hs] at h
                  | ret s => simp [hs] at h; obtain ⟨rfl, _, rfl⟩ := h; simp


/-- The lookup `getDynamoEntry` reads the key-value store only: on another
world with the same store it ends the same way. -/
theorem getDynamoEntry_congr (E : Env κ φ) (c c1 : billingChecker) (w w1 v : World κ φ)
    (err : Option GoError) (hkv : v.kv = w.kv)
    (h : getDynamoEntry E c w = Run.ret (c1, err, w1)) :
    getDynamoEntry E c v =
      Run.ret (c1, err, v.log (Call.GetItem billingReportTableName billingReportNameField c.filename)) := by
  unfold getDynamoEntry at h ⊢
  rw [hkv]
  split at h
  · rename_i heq
    simp at h; obtain ⟨rfl, rfl, _⟩ := h; simp [heq]
  · rename_i heq
    simp at h; obtain ⟨rfl, rfl, _⟩ := h; simp [heq]
  · rename_i heq
    simp only [heq]
    split at h
    · rename_i hlen
      simp at h; obtain ⟨rfl, rfl, _⟩ := h; simp [hlen]
    · rename_i hlen
      rw [if_neg hlen]
      split at h
      · rename_i val hval
        cases val with
        | none => simp [deref] at h
        | some a =>
          cases hS : a.S with
          | none => simp [deref, hS] at h
          | some s => simp [deref, hS] at h; obtain ⟨rfl, rfl, _⟩ := h; simp [deref, hS]
      · rename_i hval
        simp at h; obtain ⟨rfl, rfl, _⟩ := h; simp [hval]

/-- The lookup `getS3Entry` reads the listing only: on any other world it
ends the same way. -/
theorem getS3Entry_congr (E : Env κ φ) (c c1 : billingChecker) (w w1 v : World κ φ)
    (err : Option GoError) (h : getS3Entry E c w = Run.ret (c1, err, w1)) :
    getS3Entry E c v = Run.ret (c1, err, v.log (Call.ListObjects c.s3Bucket c.filename)) := by
  unfold getS3Entry at h ⊢
  split at h
  · rename_i heq
    simp at h; obtain ⟨rfl, rfl, _⟩ := h; simp [heq]
  · rename_i objectsOutput heq
    simp only [heq]
    split at h
    · rename_i hlen
      simp at h; obtain ⟨rfl, rfl, _⟩ := h; simp [hlen]
    · rename_i hlen
      rw [if_neg hlen]
      cases h0 : index objectsOutput 0 with
      | panic => simp [h0] at h
      | ret p0 =>
        cases p0 with
        | none => simp [h0, deref] at h
        | some out0 =>
          simp only [h0, Run.bind_ret, deref] at h ⊢
          split at h
          · rename_i hc
            simp at h; obtain ⟨rfl, rfl, _⟩ := h; simp [hc]
          · rename_i hc
            rw [if_neg hc]
            cases h1 : index out0.Contents 0 with
            | panic => simp [h1] at h
            | ret q0 =>
              cases q0 with
              | none => simp [h1] at h
              | some obj0 =>
                cases hE : obj0.ETag with
                | none => simp [h1, hE] at h
                | some etag =>
                  simp only [h1, hE, Run.bind_ret] at h ⊢
                  cases hs : sliceStr etag 1 ((etag.length : Int) - 1) with
                  | panic => simp [hs] at h
                  | ret s => simp [hs] at h; obtain ⟨rfl, rfl, _⟩ := h; simp

/-- The two ways `Check` returns: the metadata lookup failed, or it succeeded
and the listing lookup decided the rest. -/
theorem Check_inv (E : Env κ φ) (c chk : billingChecker) (w w1 : World κ φ) (need : Bool)
    (err : Option GoError) (h : Check E c w = Run.ret (chk, (need, err), w1)) :
    (∃ e, err = some e ∧ need = false ∧ getDynamoEntry E c w = Run.ret (chk, some e, w1)) ∨
    (∃ c1 wa, getDynamoEntry E c w = Run.ret (c1, none, wa) ∧
      getS3Entry E c1 wa = Run.ret (chk, err, w1) ∧
      (err ≠ none → need = false) ∧
      (err = none → (need = true ↔ chk.newMd5 ≠ chk.oldMd5))) := by
  unfold Check at h
  cases hd : getDynamoEntry E c w with
  | panic => simp [hd] at h
  | ret r =>
    obtain ⟨c1, e1, wa⟩ := r
    cases e1 with
    | some e =>
      simp [hd] at h
      obtain ⟨rfl, ⟨rfl, rfl⟩, rfl⟩ := h
      exact Or.inl ⟨e, rfl, rfl, rfl⟩
    | none =>
      simp only [hd, Run.bind_ret] at h
      cases hs : getS3Entry E c1 wa with
      | panic => simp [hs] at h
      | ret r2 =>
        obtain ⟨c2, e2, wb⟩ := r2
        cases e2 with
        | some e =>
          simp [hs] at h
          obtain ⟨rfl, ⟨rfl, rfl⟩, rfl⟩ := h
          exact Or.inr ⟨c1, wa, rfl, hs, by simp, by simp⟩
        | none =>
          simp only [hs, Run.bind_ret] at h
          split at h
          · rename_i heq
            simp at h
            obtain ⟨rfl, ⟨rfl, rfl⟩, rfl⟩ := h
            exact Or.inr ⟨c1, wa, rfl, hs, by simp, by simp [heq]⟩
          · rename_i hne
            simp at h
            obtain ⟨rfl, ⟨rfl, rfl⟩, rfl⟩ := h
            exact Or.inr ⟨c1, wa, rfl, hs, by simp, by simp [hne]⟩

/-- A returning `Check` leaves the stores alone, keeps the bucket and the
file name of the checker, and records a `GetItem` call followed, when the
metadata lookup succeeded, by a `ListObjects` call. -/
theorem Check_world (E : Env κ φ) (c chk : billingChecker) (w w1 : World κ φ) (need : Bool)
    (err : Option GoError) (h : Check E c w = Run.ret (chk, (need, err), w1)) :
    w1.kv = w.kv ∧ w1.fs = w.fs ∧ chk.s3Bucket = c.s3Bucket ∧ chk.filename = c.filename ∧
    (w1.trace = w.trace ++ [Call.GetItem billingReportTableName billingReportNameField c.filename] ∨
     w1.trace = w.trace ++ [Call.GetItem billingReportTableName billingReportNameField c.filename,
       Call.ListObjects c.s3Bucket c.filename]) ∧
    (err = none →
      w1.trace = w.trace ++ [Call.GetItem billingReportTableName billingReportNameField c.filename,
        Call.ListObjects c.s3Bucket c.filename]) := by
  rcases Check_inv E c chk w w1 need err h with ⟨e, rfl, _, hd⟩ | ⟨c1, wa, hd, hs, _, _⟩
  · obtain ⟨hb, hf, _, rfl⟩ := getDynamoEntry_frame E c chk w w1 _ hd
    simp [World.log, hb, hf]
  · obtain ⟨hb, hf, _, rfl⟩ := getDynamoEntry_frame E c c1 w wa _ hd
    obtain ⟨hb2, hf2, _, rfl⟩ := getS3Entry_frame E c1 chk _ w1 _ hs
    simp [World.log, hb, hf, hb2, hf2]

/-- The check reads the key-value store and the listing only: from another
world with the same key-value store it ends the same way, recording the
same calls. -/
theorem Check_congr (E : Env κ φ) (c chk : billingChecker) (w w1 v : World κ φ)
    (r : Bool × Option GoError) (hkv : v.kv = w.kv)
    (h : Check E c w = Run.ret (chk, r, w1)) :
    ∃ t, w1.trace = w.trace ++ t ∧
      Check E c v = Run.ret (chk, r, { v with trace := v.trace ++ t }) := by
  obtain ⟨need, err⟩ := r
  unfold Check at h
  cases hd : getDynamoEntry E c w with
  | panic => simp [hd] at h
  | ret r1 =>
    obtain ⟨c1, e1, wa⟩ := r1
    have hdv := getDynamoEntry_congr E c c1 w wa v e1 hkv hd
    obtain ⟨_, hf, _, rfl⟩ := getDynamoEntry_frame E c c1 w wa _ hd
    cases e1 with
    | some e =>
      simp [hd] at h
      obtain ⟨rfl, ⟨rfl, rfl⟩, rfl⟩ := h
      exact ⟨[Call.GetItem billingReportTableName billingReportNameField c.filename],
        rfl, by simp [Check, hdv, World.log]⟩
    | none =>
      simp only [hd, Run.bind_ret] at h
      cases hs : getS3Entry E c1 (w.log (Call.GetItem billingReportTableName
          billingReportNameField c.filename)) with
      | panic => simp [hs] at h
      | ret r2 =>
        obtain ⟨c2, e2, wb⟩ := r2
        have hsv := getS3Entry_congr E c1 c2 _ wb
          (v.log (Call.GetItem billingReportTableName billingReportNameField c.filename)) e2 hs
        obtain ⟨_, _, _, rfl⟩ := getS3Entry_frame E c1 c2 _ wb _ hs
        refine ⟨[Call.GetItem billingReportTableName billingReportNameField c.filename,
          Call.ListObjects c1.s3Bucket c1.filename], ?_, ?_⟩
        · cases e2 with
          | some e =>
            simp [hs] at h
            obtain ⟨_, _, rfl⟩ := h
            simp [World.log]
          | none =>
            simp only [hs, Run.bind_ret] at h
            split at h <;> simp at h <;> obtain ⟨_, _, rfl⟩ := h <;> simp [World.log]
        · cases e2 with
          | some e =>
            simp [hs] at h
            obtain ⟨rfl, ⟨rfl, rfl⟩, _⟩ := h
            simp only [Check, hdv, Run.bind_ret, hsv]
            simp [World.log]
          | none =>
            simp only [hs, Run.bind_ret] at h
            split at h
            · rename_i heq
              simp at h
              obtain ⟨rfl, ⟨rfl, rfl⟩, _⟩ := h
              simp only [Check, hdv, Run.bind_ret, hsv]
              simp [World.log, heq]
            · rename_i hne
              simp at h
              obtain ⟨rfl, ⟨rfl, rfl⟩, _⟩ := h
              simp only [Check, hdv, Run.bind_ret, hsv]
              simp [World.log, hne]

/-- The second result of `AlreadyPresent` is the current fingerprint. -/
theorem AlreadyPresent_snd (c : billingChecker) : (AlreadyPresent c).2 = c.newMd5 := by
  unfold AlreadyPresent
  split <;> rfl

/-- A panic of the check is a panic of `Import`. -/
theorem Import_of_check_panic (E : Env κ φ) (m : BillingManager) (date bucket : GoString)
    (w : World κ φ)
    (h : Check E (NewChecker bucket (E.GetAccountID ++ filenamePattern ++ date ++ fileExtension)) w
      = Run.panic) :
    Import E m date bucket w = Run.panic := by
  simp only [Import, getS3Filename, h, Run.bind_ret, Run.bind_panic]
  try simp

/-- An error of the check ends `Import` with that error, at the world the
check left. -/
theorem Import_of_check_error (E : Env κ φ) (m : BillingManager) (date bucket : GoString)
    (w w1 : World κ φ) (chk : billingChecker) (need : Bool) (e : GoError)
    (h : Check E (NewChecker bucket (E.GetAccountID ++ filenamePattern ++ date ++ fileExtension)) w
      = Run.ret (chk, (need, some e), w1)) :
    Import E m date bucket w =
      Run.ret ({ m with date := date, checker := some chk }, some e, w1) := by
  simp only [Import, getS3Filename, h, Run.bind_ret, Run.bind_panic]
  try simp

/-- A check that finds nothing to import ends `Import` with `nil`, at the
world the check left. -/
theorem Import_of_skip (E : Env κ φ) (m : BillingManager) (date bucket : GoString)
    (w w1 : World κ φ) (chk : billingChecker)
    (h : Check E (NewChecker bucket (E.GetAccountID ++ filenamePattern ++ date ++ fileExtension)) w
      = Run.ret (chk, (false, none), w1)) :
    Import E m date bucket w =
      Run.ret ({ m with date := date, checker := some chk }, none, w1) := by
  simp only [Import, getS3Filename, h, Run.bind_ret, Run.bind_panic]
  try simp

/-- After a check that asks for an import, a failing download ends `Import`
with the download error. -/
theorem Import_of_download_error (E : Env κ φ) (m : BillingManager) (date bucket : GoString)
    (w w1 : World κ φ) (chk : billingChecker) (file : GoString) (e : GoError) (fs1 : φ)
    (h : Check E (NewChecker bucket (E.GetAccountID ++ filenamePattern ++ date ++ fileExtension)) w
      = Run.ret (chk, (true, none), w1))
    (hdl : E.Download w1.fs bucket (E.GetAccountID ++ filenamePattern ++ date ++ fileExtension)
      downloadPath = ((file, some e), fs1)) :
    Import E m date bucket w =
      Run.ret ({ m with date := date, checker := some chk,
                        downloader := some ⟨bucket,
                          E.GetAccountID ++ filenamePattern ++ date ++ fileExtension⟩ },
        some e,
        { kv := w1.kv, fs := fs1,
          trace := w1.trace ++ [Call.Download bucket
            (E.GetAccountID ++ filenamePattern ++ date ++ fileExtension) downloadPath] }) := by
  simp only [Import, getS3Filename, h, Run.bind_ret, World.log, hdl]
  try simp

/-- After a check that asks for an import and a download, a failing unzip
ends `Import` with the unzip error. -/
theorem Import_of_unzip_error (E : Env κ φ) (m : BillingManager) (date bucket : GoString)
    (w w1 : World κ φ) (chk : billingChecker) (file path : GoString) (e : GoError) (fs1 fs2 : φ)
    (h : Check E (NewChecker bucket (E.GetAccountID ++ filenamePattern ++ date ++ fileExtension)) w
      = Run.ret (chk, (true, none), w1))
    (hdl : E.Download w1.fs bucket (E.GetAccountID ++ filenamePattern ++ date ++ fileExtension)
      downloadPath = ((file, none), fs1))
    (huz : E.Unzip fs1 file unzipPath = ((path, some e), fs2)) :
    Import E m date bucket w =
      Run.ret ({ m with date := date, checker := some chk,
                        downloader := some ⟨bucket,
                          E.GetAccountID ++ filenamePattern ++ date ++ fileExtension⟩ },
        some e,
        { kv := w1.kv, fs := fs2,
          trace := w1.trace ++ [Call.Download bucket
            (E.GetAccountID ++ filenamePattern ++ date ++ fileExtension) downloadPath,
            Call.Unzip file unzipPath] }) := by
  simp only [Import, getS3Filename, h, Run.bind_ret, World.log, hdl, huz]
  try simp

/-- After a check that asks for an import, a download and an unzip, `Import`
calls `ProcessFile`, then `CreateReport` with the report name and the current
fingerprint, and returns what `CreateReport` returns. -/
theorem Import_of_commit (E : Env κ φ) (m : BillingManager) (date bucket : GoString)
    (w w1 : World κ φ) (chk : billingChecker) (file path : GoString) (fs1 fs2 : φ)
    (h : Check E (NewChecker bucket (E.GetAccountID ++ filenamePattern ++ date ++ fileExtension)) w
      = Run.ret (chk, (true, none), w1))
    (hdl : E.Download w1.fs bucket (E.GetAccountID ++ filenamePattern ++ date ++ fileExtension)
      downloadPath = ((file, none), fs1))
    (huz : E.Unzip fs1 file unzipPath = ((path, none), fs2)) :
    Import E m date bucket w =
      Run.ret ({ date := date, checker := some chk,
                 downloader := some ⟨bucket,
                   E.GetAccountID ++ filenamePattern ++ date ++ fileExtension⟩,
                 loader := some ⟨2⟩, injector := true },
        (E.CreateReport
          (E.ProcessFile w1.kv fs2 2 (E.GetAccountID ++ filenamePattern ++ date ++ fileExtension)
            path).2
          (E.GetAccountID ++ filenamePattern ++ date ++ fileExtension) chk.newMd5).1,
        { kv := (E.CreateReport
            (E.ProcessFile w1.kv fs2 2 (E.GetAccountID ++ filenamePattern ++ date ++ fileExtension)
              path).2
            (E.GetAccountID ++ filenamePattern ++ date ++ fileExtension) chk.newMd5).2,
          fs := fs2,
          trace := w1.trace ++ [Call.Download bucket
            (E.GetAccountID ++ filenamePattern ++ date ++ fileExtension) downloadPath,
            Call.Unzip file unzipPath,
            Call.ProcessFile 2 (E.GetAccountID ++ filenamePattern ++ date ++ fileExtension) path,
            Call.CreateReport (E.GetAccountID ++ filenamePattern ++ date ++ fileExtension)
              chk.newMd5] }) := by
  simp only [Import, getS3Filename, h, World.log, hdl, huz, Run.bind_ret, AlreadyPresent_snd]
  cases hcr : E.CreateReport
      (E.ProcessFile w1.kv fs2 2 (E.GetAccountID ++ filenamePattern ++ date ++ fileExtension)
        path).2
      (E.GetAccountID ++ filenamePattern ++ date ++ fileExtension) chk.newMd5 with
  | mk r kv2 =>
    cases r <;> simp [hcr]

/-- The five ways `Import` returns: the check failed; nothing to import; the
download failed; the unzip failed; the load ran and `CreateReport` decided
the result. -/
theorem Import_inv (E : Env κ φ) (m m1 : BillingManager) (date bucket : GoString)
    (w w2 : World κ φ) (err : Option GoError)
    (h : Import E m date bucket w = Run.ret (m1, err, w2)) :
    ∃ chk need cerr w1,
      Check E (NewChecker bucket (E.GetAccountID ++ filenamePattern ++ date ++ fileExtension)) w
        = Run.ret (chk, (need, cerr), w1) ∧
      m1.date = date ∧ m1.checker = some chk ∧
      ((∃ e, cerr = some e ∧ err = some e ∧ w2 = w1) ∨
       (cerr = none ∧ need = false ∧ err = none ∧ w2 = w1) ∨
       (cerr = none ∧ need = true ∧ ∃ file e fs1,
          E.Download w1.fs bucket (E.GetAccountID ++ filenamePattern ++ date ++ fileExtension)
            downloadPath = ((file, some e), fs1) ∧
          err = some e ∧
          w2 = { kv := w1.kv, fs := fs1,
                 trace := w1.trace ++ [Call.Download bucket
                   (E.GetAccountID ++ filenamePattern ++ date ++ fileExtension) downloadPath] }) ∨
       (cerr = none ∧ need = true ∧ ∃ file fs1 path e fs2,
          E.Download w1.fs bucket (E.GetAccountID ++ filenamePattern ++ date ++ fileExtension)
            downloadPath = ((file, none), fs1) ∧
          E.Unzip fs1 file unzipPath = ((path, some e), fs2) ∧
          err = some e ∧
          w2 = { kv := w1.kv, fs := fs2,
                 trace := w1.trace ++ [Call.Download bucket
                   (E.GetAccountID ++ filenamePattern ++ date ++ fileExtension) downloadPath,
                   Call.Unzip file unzipPath] }) ∨
       (cerr = none ∧ need = true ∧ ∃ file fs1 path fs2,
          E.Download w1.fs bucket (E.GetAccountID ++ filenamePattern ++ date ++ fileExtension)
            downloadPath = ((file, none), fs1) ∧
          E.Unzip fs1 file unzipPath = ((path, none), fs2) ∧
          err = (E.CreateReport
            (E.ProcessFile w1.kv fs2 2
              (E.GetAccountID ++ filenamePattern ++ date ++ fileExtension) path).2
            (E.GetAccountID ++ filenamePattern ++ date ++ fileExtension) chk.newMd5).1 ∧
          w2 = { kv := (E.CreateReport
                   (E.ProcessFile w1.kv fs2 2
                     (E.GetAccountID ++ filenamePattern ++ date ++ fileExtension) path).2
                   (E.GetAccountID ++ filenamePattern ++ date ++ fileExtension) chk.newMd5).2,
                 fs := fs2,
                 trace := w1.trace ++ [Call.Download bucket
                   (E.GetAccountID ++ filenamePattern ++ date ++ fileExtension) downloadPath,
                   Call.Unzip file unzipPath,
                   Call.ProcessFile 2
                     (E.GetAccountID ++ filenamePattern ++ date ++ fileExtension) path,
                   Call.CreateReport
                     (E.GetAccountID ++ filenamePattern ++ date ++ fileExtension)
                     chk.newMd5] })) := by
  cases hc : Check E (NewChecker bucket
      (E.GetAccountID ++ filenamePattern ++ date ++ fileExtension)) w with
  | panic =>
    rw [Import_of_check_panic E m date bucket w hc] at h
    cases h
  | ret r =>
    obtain ⟨chk, ⟨need, cerr⟩, w1⟩ := r
    refine ⟨chk, need, cerr, w1, rfl, ?_⟩
    cases cerr with
    | some e =>
      rw [Import_of_check_error E m date bucket w w1 chk need e hc] at h
      simp only [Run.ret.injEq, Prod.mk.injEq] at h
      obtain ⟨rfl, rfl, rfl⟩ := h
      exact ⟨rfl, rfl, Or.inl ⟨e, rfl, rfl, rfl⟩⟩
    | none =>
      cases need with
      | false =>
        rw [Import_of_skip E m date bucket w w1 chk hc] at h
        simp only [Run.ret.injEq, Prod.mk.injEq] at h
        obtain ⟨rfl, rfl, rfl⟩ := h
        exact ⟨rfl, rfl, Or.inr (Or.inl ⟨rfl, rfl, rfl, rfl⟩)⟩
      | true =>
        cases hdl : E.Download w1.fs bucket
            (E.GetAccountID ++ filenamePattern ++ date ++ fileExtension) downloadPath with
        | mk r1 fs1 =>
          obtain ⟨file, derr⟩ := r1
          cases derr with
          | some e =>
            rw [Import_of_download_error E m date bucket w w1 chk file e fs1 hc hdl] at h
            simp only [Run.ret.injEq, Prod.mk.injEq] at h
            obtain ⟨rfl, rfl, rfl⟩ := h
            exact ⟨rfl, rfl, Or.inr (Or.inr (Or.inl ⟨rfl, rfl, file, e, fs1, rfl, rfl, rfl⟩))⟩
          | none =>
            cases huz : E.Unzip fs1 file unzipPath with
            | mk r2 fs2 =>
              obtain ⟨path, uerr⟩ := r2
              cases uerr with
              | some e =>
                rw [Import_of_unzip_error E m date bucket w w1 chk file path e fs1 fs2 hc hdl huz]
                  at h
                simp only [Run.ret.injEq, Prod.mk.injEq] at h
                obtain ⟨rfl, rfl, rfl⟩ := h
                exact ⟨rfl, rfl, Or.inr (Or.inr (Or.inr (Or.inl
                  ⟨rfl, rfl, file, fs1, path, e, fs2, rfl, huz, rfl, rfl⟩)))⟩
              | none =>
                rw [Import_of_commit E m date bucket w w1 chk file path fs1 fs2 hc hdl huz] at h
                simp only [Run.ret.injEq, Prod.mk.injEq] at h
                obtain ⟨rfl, rfl, rfl⟩ := h
                exact ⟨rfl, rfl, Or.inr (Or.inr (Or.inr (Or.inr
                  ⟨rfl, rfl, file, fs1, path, fs2, rfl, huz, rfl, rfl⟩)))⟩

/-- What `getDynamoEntry` does on a row that carries an `md5` string. -/
theorem getDynamoEntry_of_row (E : Env κ φ) (c : billingChecker) (w : World κ φ)
    (item : Item) (F : GoString)
    (hg : E.GetItem w.kv billingReportTableName billingReportNameField c.filename
      = (some ⟨item⟩, none))
    (hmd5 : item.lookup billingReportMd5Field = some (some ⟨some F⟩)) :
    getDynamoEntry E c w =
      Run.ret ({ c with oldMd5 := F }, none,
        w.log (Call.GetItem billingReportTableName billingReportNameField c.filename)) := by
  have hlen : ¬ item.length = 0 := by
    intro h0
    rw [List.length_eq_zero.mp h0] at hmd5
    cases hmd5
  simp [getDynamoEntry, hg, hlen, hmd5, deref]

/-- A successful `getS3Entry` read a listing of one result and set the
current fingerprint to the slice of the first entry's ETag. -/
theorem getS3Entry_ok_inv (E : Env κ φ) (c c2 : billingChecker) (w w2 : World κ φ)
    (h : getS3Entry E c w = Run.ret (c2, none, w2)) :
    ∃ out etag rest,
      E.ListObjects c.s3Bucket c.filename = ([some out], none) ∧
      out.Contents = some ⟨some etag⟩ :: rest ∧
      sliceStr etag 1 ((etag.length : Int) - 1) = Run.ret c2.newMd5 := by
  unfold getS3Entry at h
  split at h
  · simp at h
  · rename_i objectsOutput heq
    split at h
    · simp at h
    · rename_i hlen
      match objectsOutput, hlen with
      | [], hlen => simp at hlen
      | _ :: _ :: _, hlen => simp at hlen
      | [none], _ => simp [index, deref] at h
      | [some out], _ =>
        simp only [index, List.get?_cons_zero, Run.bind_ret, deref] at h
        split at h
        · simp at h
        · match hC : out.Contents with
          | [] => simp [hC] at h
          | none :: rest => simp [hC] at h
          | some obj :: rest =>
            obtain ⟨tag⟩ := obj
            cases tag with
            | none => simp [hC] at h
            | some etag =>
              simp only [hC, List.get?_cons_zero, Run.bind_ret] at h
              cases hs : sliceStr etag 1 ((etag.length : Int) - 1) with
              | panic => simp [hs] at h
              | ret s =>
                simp [hs] at h
                obtain ⟨rfl, _⟩ := h
                exact ⟨out, etag, rest, heq, hC, hs⟩

/-- The in-memory store satisfies the upsert law of `CreateReport`. -/
theorem memEnv_upserts (outs : List (Option ListObjectsOutput)) (lerr loadErr : Option GoError) :
    CreateReportUpserts (memEnv outs lerr loadErr) := by
  intro kv kv1 name hash h
  have hne : (billingReportMd5Field == billingReportNameField) = false := by decide
  simp only [memEnv, memCreateReport, Prod.mk.injEq, true_and] at h
  subst h
  refine ⟨[(billingReportNameField, some ⟨some name⟩),
    (billingReportMd5Field, some ⟨some hash⟩)], ?_, ?_⟩
  · simp [memEnv, memGetItem, List.lookup]
  · simp [List.lookup, hne]

/-- The second check after a commit: once the row of the name holds the
fingerprint that the listing yields, a fresh checker finds nothing to import. -/
theorem Check_after_commit (E : Env κ φ) (bucket N hash : GoString) (v : World κ φ)
    (item : Item) (out : ListObjectsOutput) (etag : GoString) (rest : List (Option Object))
    (hg : E.GetItem v.kv billingReportTableName billingReportNameField N = (some ⟨item⟩, none))
    (hmd5 : item.lookup billingReportMd5Field = some (some ⟨some hash⟩))
    (hl : E.ListObjects bucket N = ([some out], none))
    (hC : out.Contents = some ⟨some etag⟩ :: rest)
    (hs : sliceStr etag 1 ((etag.length : Int) - 1) = Run.ret hash) :
    Check E (NewChecker bucket N) v =
      Run.ret (⟨bucket, N, hash, hash⟩, (false, none),
        { v with trace := v.trace ++
            [Call.GetItem billingReportTableName billingReportNameField N,
             Call.ListObjects bucket N] }) := by
  have hd := getDynamoEntry_of_row E (NewChecker bucket N) v item hash hg hmd5
  have h2 : 2 ≤ etag.length := by
    by_contra hlt
    rw [sliceStr_inner, if_neg hlt] at hs
    cases hs
  have hFs : (etag.drop 1).take (etag.length - 2) = hash := by
    rw [sliceStr_inner, if_pos h2] at hs
    simpa using hs
  have hs2 := getS3Entry_of_etag E { NewChecker bucket N with oldMd5 := hash }
    (v.log (Call.GetItem billingReportTableName billingReportNameField N)) out etag rest hl hC
  rw [if_pos h2, hFs] at hs2
  simp only [Check, hd, Run.bind_ret]
  simp only [NewChecker] at hs2 ⊢
  simp only [hs2, Run.bind_ret]
  simp [World.log]

/-! ## The checker -/

/-- C3. `Check` decides by fingerprint inequality: when both lookups succeed
it returns `(needsIngest, nil)` where `needsIngest` is true exactly when the
current fingerprint set by `getS3Entry` differs from the stored fingerprint
set by `getDynamoEntry`; when the metadata lookup fails, or it succeeds and
the listing lookup fails, `Check` returns `(false, err)` with that error. -/
theorem Check_decides_by_fingerprint_inequality (E : Env κ φ) (c c1 : billingChecker)
    (w w1 : World κ φ) (e1 : Option GoError)
    (hd : getDynamoEntry E c w = Run.ret (c1, e1, w1)) :
    (∀ e, e1 = some e → Check E c w = Run.ret (c1, (false, some e), w1)) ∧
    (∀ c2 w2 e, e1 = none → getS3Entry E c1 w1 = Run.ret (c2, some e, w2) →
      Check E c w = Run.ret (c2, (false, some e), w2)) ∧
    (∀ c2 w2, e1 = none → getS3Entry E c1 w1 = Run.ret (c2, none, w2) →
      c2.oldMd5 = c1.oldMd5 ∧
      ∃ needsIngest : Bool, Check E c w = Run.ret (c2, (needsIngest, none), w2) ∧
        (needsIngest = true ↔ c2.newMd5 ≠ c1.oldMd5) ∧
        (needsIngest = false ↔ c2.newMd5 = c1.oldMd5)) := by
  refine ⟨?_, ?_, ?_⟩
  · intro e he
    subst he
    simp [Check, hd]
  · intro c2 w2 e he hs
    subst he
    simp [Check, hd, hs]
  · intro c2 w2 he hs
    subst he
    have hold : c2.oldMd5 = c1.oldMd5 := (getS3Entry_frame E c1 c2 w1 w2 none hs).2.2.1
    refine ⟨hold, ?_⟩
    by_cases heq : c2.newMd5 = c1.oldMd5
    · refine ⟨false, ?_, by simp [heq], by simp [heq]⟩
      simp [Check, hd, hs, hold, heq]
    · refine ⟨true, ?_, by simp [heq], by simp [heq]⟩
      simp [Check, hd, hs, hold, heq]

/-- C8. Metadata lookup outcomes of a freshly constructed checker, when the
`GetItem` call itself returns no error: (i) with no row (a nil result or an
empty item) the lookup succeeds and the stored fingerprint is the empty
string; (ii) with a non-empty row that has no `md5` attribute, the lookup
fails with the error `No 'md5' field present for the entity.`, and so does
`Check`, without a listing call. -/
theorem getDynamoEntry_lookup_outcomes (E : Env κ φ) (bucket filename : GoString)
    (w : World κ φ) (result : Option GetItemOutput)
    (hg : E.GetItem w.kv billingReportTableName billingReportNameField filename = (result, none)) :
    ((result = none ∨ result = some ⟨[]⟩) →
      getDynamoEntry E (NewChecker bucket filename) w =
        Run.ret (NewChecker bucket filename, none,
          w.log (Call.GetItem billingReportTableName billingReportNameField filename)) ∧
      (NewChecker bucket filename).oldMd5 = []) ∧
    (∀ item : Item, result = some ⟨item⟩ → item ≠ [] →
      item.lookup billingReportMd5Field = none →
      getDynamoEntry E (NewChecker bucket filename) w =
        Run.ret (NewChecker bucket filename, some noMd5Field,
          w.log (Call.GetItem billingReportTableName billingReportNameField filename)) ∧
      Check E (NewChecker bucket filename) w =
        Run.ret (NewChecker bucket filename, (false, some noMd5Field),
          w.log (Call.GetItem billingReportTableName billingReportNameField filename)) ∧
      noMd5Field = GoError.Errorf (str "No \x27md5\x27 field present for the entity.")) := by
  constructor
  · intro h
    refine ⟨?_, rfl⟩
    rcases h with h | h <;> subst h <;> simp [getDynamoEntry, NewChecker, hg]
  · intro item hi hne hl
    subst hi
    have hlen : ¬ item.length = 0 := by
      intro h0
      exact hne (List.length_eq_zero.mp h0)
    have h1 : getDynamoEntry E (NewChecker bucket filename) w =
        Run.ret (NewChecker bucket filename, some noMd5Field,
          w.log (Call.GetItem billingReportTableName billingReportNameField filename)) := by
      simp [getDynamoEntry, NewChecker, hg, hlen, hl]
    refine ⟨h1, ?_, by decide⟩
    simp [Check, h1]

/-- C9. Quote stripping: when the listing holds one result with one object
whose ETag is `s` between two double quotes, `getS3Entry` succeeds and sets
the current fingerprint to exactly `s`, which is what `AlreadyPresent`
exposes. -/
theorem getS3Entry_strips_quotes (E : Env κ φ) (c : billingChecker) (w : World κ φ)
    (s : GoString)
    (hl : E.ListObjects c.s3Bucket c.filename =
      ([some ⟨[some ⟨some (str "\"" ++ s ++ str "\"")⟩]⟩], none)) :
    getS3Entry E c w =
      Run.ret ({ c with newMd5 := s }, none, w.log (Call.ListObjects c.s3Bucket c.filename)) ∧
    (AlreadyPresent { c with newMd5 := s }).2 = s := by
  constructor
  · have hq : str "\"" = [34] := by decide
    rw [getS3Entry_of_etag E c w _ _ [] hl rfl]
    simp [hq]
  · unfold AlreadyPresent
    split <;> rfl

/-- C10. Bounds of the fingerprint slice: on a listing of one result whose
first content entry carries the ETag `e`, `getS3Entry` returns exactly when
`len(e) >= 2`; it then returns no error and sets the current fingerprint to
`e` without its first and last byte, of length `len(e) - 2`, whatever those
bytes are; for `len(e) < 2` it panics instead of returning an error. -/
theorem getS3Entry_slice_bounds (E : Env κ φ) (c : billingChecker) (w : World κ φ)
    (out : ListObjectsOutput) (e : GoString) (rest : List (Option Object))
    (hl : E.ListObjects c.s3Bucket c.filename = ([some out], none))
    (hc : out.Contents = some ⟨some e⟩ :: rest) :
    ((∃ r, getS3Entry E c w = Run.ret r) ↔ 2 ≤ e.length) ∧
    (2 ≤ e.length →
      getS3Entry E c w =
        Run.ret ({ c with newMd5 := (e.drop 1).dropLast }, none,
          w.log (Call.ListObjects c.s3Bucket c.filename)) ∧
      ((e.drop 1).dropLast).length = e.length - 2 ∧
      ∀ i : Nat, i < e.length - 2 → ((e.drop 1).dropLast)[i]? = e[i + 1]?) ∧
    (e.length < 2 → getS3Entry E c w = Run.panic) := by
  have hrun := getS3Entry_of_etag E c w out e rest hl hc
  have hdl : (e.drop 1).dropLast = (e.drop 1).take (e.length - 2) := by
    rw [List.dropLast_eq_take, List.length_drop]
    rfl
  refine ⟨?_, ?_, ?_⟩
  · constructor
    · rintro ⟨r, hr⟩
      by_contra hlt
      rw [hrun, if_neg hlt] at hr
      cases hr
    · intro h2
      rw [hrun, if_pos h2]
      exact ⟨_, rfl⟩
  · intro h2
    refine ⟨?_, ?_, ?_⟩
    · rw [hrun, if_pos h2, hdl]
    · rw [hdl, List.length_take, List.length_drop]
      omega
    · intro i hi
      rw [hdl, List.getElem?_take_of_lt hi, List.getElem?_drop, Nat.add_comm]
  · intro hlt
    rw [hrun, if_neg (by omega)]

/-! ## The coordinator -/

/-- C7. The report name is bit-exact: `getS3Filename` returns the account id,
then `-aws-billing-detailed-line-items-with-resources-and-tags-`, then the
date, then `.csv.zip`; and within one returning `Import(date, bucket)` every
recorded call that takes a name (metadata key, listing prefix, downloaded
object, loaded report, committed row) takes that same string, as does the
checker the manager holds. The metadata lookup under that name is always
among the calls. -/
theorem report_name_bit_exact (E : Env κ φ) (m m1 : BillingManager) (date bucket : GoString)
    (w w2 : World κ φ) (err : Option GoError)
    (h : Import E m date bucket w = Run.ret (m1, err, w2)) :
    (∀ m0 : BillingManager, getS3Filename E m0 =
      E.GetAccountID ++ str "-aws-billing-detailed-line-items-with-resources-and-tags-"
        ++ m0.date ++ str ".csv.zip") ∧
    getS3Filename E m1 =
      E.GetAccountID ++ str "-aws-billing-detailed-line-items-with-resources-and-tags-"
        ++ date ++ str ".csv.zip" ∧
    (∀ chk, m1.checker = some chk → chk.filename = getS3Filename E m1) ∧
    ∃ t, w2.trace = w.trace ++ t ∧
      Call.GetItem billingReportTableName billingReportNameField (getS3Filename E m1) ∈ t ∧
      ∀ c ∈ t, ∀ n, c.reportName = some n → n = getS3Filename E m1 := by
  obtain ⟨chk, need, cerr, w1, hc, hdate, hchk, hcases⟩ := Import_inv E m m1 date bucket w w2 err h
  obtain ⟨_, _, hb, hf, htr, _⟩ := Check_world E _ chk w w1 need cerr hc
  have hname : getS3Filename E m1 =
      E.GetAccountID ++ filenamePattern ++ date ++ fileExtension := by
    simp [getS3Filename, hdate]
  refine ⟨fun m0 => rfl, by rw [hname]; rfl, ?_, ?_⟩
  · intro chk1 h1
    rw [hchk] at h1
    cases h1
    rw [hname, hf]
    rfl
  · rw [hname]
    simp only [NewChecker] at htr
    generalize E.GetAccountID ++ filenamePattern ++ date ++ fileExtension = N at *
    have key : ∀ t1, w1.trace = w.trace ++ t1 →
        Call.GetItem billingReportTableName billingReportNameField N ∈ t1 →
        (∀ c ∈ t1, ∀ n, c.reportName = some n → n = N) →
        ∃ t, w2.trace = w.trace ++ t ∧
          Call.GetItem billingReportTableName billingReportNameField N ∈ t ∧
          ∀ c ∈ t, ∀ n, c.reportName = some n → n = N := by
      intro t1 ht1 hmem hall
      rcases hcases with ⟨e, _, _, rfl⟩ | ⟨_, _, _, rfl⟩ | ⟨_, _, file, e, fs1, _, _, rfl⟩ |
        ⟨_, _, file, fs1, path, e, fs2, _, _, _, rfl⟩ | ⟨_, _, file, fs1, path, fs2, _, _, _, rfl⟩
      · exact ⟨t1, ht1, hmem, hall⟩
      · exact ⟨t1, ht1, hmem, hall⟩
      · refine ⟨t1 ++ [Call.Download bucket N downloadPath], by simp [ht1], by simp [hmem], ?_⟩
        intro c hcm n hn
        rcases List.mem_append.mp hcm with hcm | hcm
        · exact hall c hcm n hn
        · simp at hcm; subst hcm; simp [Call.reportName] at hn; exact hn.symm
      · refine ⟨t1 ++ [Call.Download bucket N downloadPath, Call.Unzip file unzipPath],
          by simp [ht1], by simp [hmem], ?_⟩
        intro c hcm n hn
        rcases List.mem_append.mp hcm with hcm | hcm
        · exact hall c hcm n hn
        · simp at hcm
          rcases hcm with rfl | rfl <;> simp [Call.reportName] at hn
          exact hn.symm
      · refine ⟨t1 ++ [Call.Download bucket N downloadPath, Call.Unzip file unzipPath,
          Call.ProcessFile 2 N path, Call.CreateReport N chk.newMd5],
          by simp [ht1], by simp [hmem], ?_⟩
        intro c hcm n hn
        rcases List.mem_append.mp hcm with hcm | hcm
        · exact hall c hcm n hn
        · simp at hcm
          rcases hcm with rfl | rfl | rfl | rfl <;> simp [Call.reportName] at hn <;> exact hn.symm
    rcases htr with htr | htr
    · refine key _ htr (by simp) ?_
      intro c hcm n hn
      simp at hcm; subst hcm; simp [Call.reportName] at hn; exact hn.symm
    · refine key _ htr (by simp) ?_
      intro c hcm n hn
      simp at hcm
      rcases hcm with rfl | rfl <;> simp [Call.reportName] at hn <;> exact hn.symm

/-- C4. Skip without side effects: if the metadata row for the composed
report name holds fingerprint `F` and the listing holds one result with one
object whose ETag slice is `F`, then `Import` returns `nil`, leaves the
key-value store and the scratch files as they were, and records the two
lookups and nothing else: no download, no unzip, no load, no commit. -/
theorem Import_skips_without_side_effects (E : Env κ φ) (m : BillingManager)
    (date bucket : GoString) (w : World κ φ) (item : Item) (F etag : GoString)
    (hg : E.GetItem w.kv billingReportTableName billingReportNameField
      (E.GetAccountID ++ filenamePattern ++ date ++ fileExtension) = (some ⟨item⟩, none))
    (hmd5 : item.lookup billingReportMd5Field = some (some ⟨some F⟩))
    (hl : E.ListObjects bucket (E.GetAccountID ++ filenamePattern ++ date ++ fileExtension)
      = ([some ⟨[some ⟨some etag⟩]⟩], none))
    (hF : sliceStr etag 1 ((etag.length : Int) - 1) = Run.ret F) :
    ∃ m1 w2, Import E m date bucket w = Run.ret (m1, none, w2) ∧
      w2.kv = w.kv ∧ w2.fs = w.fs ∧
      w2.trace = w.trace ++
        [Call.GetItem billingReportTableName billingReportNameField
           (E.GetAccountID ++ filenamePattern ++ date ++ fileExtension),
         Call.ListObjects bucket (E.GetAccountID ++ filenamePattern ++ date ++ fileExtension)] ∧
      (∀ c ∈ [Call.GetItem billingReportTableName billingReportNameField
           (E.GetAccountID ++ filenamePattern ++ date ++ fileExtension),
         Call.ListObjects bucket (E.GetAccountID ++ filenamePattern ++ date ++ fileExtension)],
        c.isStage = false) := by
  have hd := getDynamoEntry_of_row E
    (NewChecker bucket (E.GetAccountID ++ filenamePattern ++ date ++ fileExtension)) w item F hg hmd5
  have h2 : 2 ≤ etag.length := by
    by_contra hlt
    rw [sliceStr_inner, if_neg hlt] at hF
    cases hF
  have hFs : (etag.drop 1).take (etag.length - 2) = F := by
    rw [sliceStr_inner, if_pos h2] at hF
    simpa using hF
  have hs := getS3Entry_of_etag E
    { NewChecker bucket (E.GetAccountID ++ filenamePattern ++ date ++ fileExtension) with
      oldMd5 := F }
    (w.log (Call.GetItem billingReportTableName billingReportNameField
      (E.GetAccountID ++ filenamePattern ++ date ++ fileExtension)))
    ⟨[some ⟨some etag⟩]⟩ etag [] hl rfl
  rw [if_pos h2, hFs] at hs
  have hc : Check E
      (NewChecker bucket (E.GetAccountID ++ filenamePattern ++ date ++ fileExtension)) w =
      Run.ret (⟨bucket, E.GetAccountID ++ filenamePattern ++ date ++ fileExtension, F, F⟩,
        (false, none),
        (w.log (Call.GetItem billingReportTableName billingReportNameField
          (E.GetAccountID ++ filenamePattern ++ date ++ fileExtension))).log
          (Call.ListObjects bucket
            (E.GetAccountID ++ filenamePattern ++ date ++ fileExtension))) := by
    simp only [Check, hd, Run.bind_ret]
    simp only [NewChecker] at hs ⊢
    simp only [hs, Run.bind_ret]
    simp
  refine ⟨_, _, Import_of_skip E m date bucket w _ _ hc, rfl, rfl, ?_, ?_⟩
  · simp [World.log]
  · intro c hcm
    simp at hcm
    rcases hcm with rfl | rfl <;> rfl

/-- C5. The committed fingerprint is the observed one: in a run of `Import`
that returns `nil` and calls `CreateReport`, the name passed is the composed
report name, under which the check made its two lookups, and the fingerprint
passed is the second result of `AlreadyPresent` on the run's checker, which is
the slice of the ETag that the listing gave to `Check` in that run. -/
theorem committed_fingerprint_is_observed (E : Env κ φ) (m m1 : BillingManager)
    (date bucket : GoString) (w w2 : World κ φ) (t : List Call) (n hash : GoString)
    (h : Import E m date bucket w = Run.ret (m1, none, w2))
    (ht : w2.trace = w.trace ++ t)
    (hcr : Call.CreateReport n hash ∈ t) :
    n = E.GetAccountID ++ filenamePattern ++ date ++ fileExtension ∧
    Call.GetItem billingReportTableName billingReportNameField n ∈ t ∧
    Call.ListObjects bucket n ∈ t ∧
    (∃ chk, m1.checker = some chk ∧ chk.filename = n ∧ (AlreadyPresent chk).2 = hash) ∧
    ∃ out etag rest,
      E.ListObjects bucket n = ([some out], none) ∧
      out.Contents = some ⟨some etag⟩ :: rest ∧
      sliceStr etag 1 ((etag.length : Int) - 1) = Run.ret hash := by
  obtain ⟨chk, need, cerr, w1, hc, hdate, hchk, hcases⟩ := Import_inv E m m1 date bucket w w2 none h
  obtain ⟨_, _, hb, hf, htr, htr2⟩ := Check_world E _ chk w w1 need cerr hc
  simp only [NewChecker] at htr htr2 hb hf
  generalize E.GetAccountID ++ filenamePattern ++ date ++ fileExtension = N at *
  have hno : ∀ t1 : List Call, w1.trace = w.trace ++ t1 → w2 = w1 →
      (∀ c ∈ t1, c.isCreateReport = false) → False := by
    intro t1 ht1 hw hall
    subst hw
    rw [ht1] at ht
    have := List.append_cancel_left ht
    subst this
    have := hall _ hcr
    simp [Call.isCreateReport] at this
  have hreads : ∀ c ∈ [Call.GetItem billingReportTableName billingReportNameField N,
      Call.ListObjects bucket N], c.isCreateReport = false := by
    intro c hcm
    simp at hcm
    rcases hcm with rfl | rfl <;> rfl
  rcases hcases with ⟨e, _, he, _⟩ | ⟨hce, _, _, hw⟩ | ⟨_, _, file, e, fs1, _, he, _⟩ |
    ⟨_, _, file, fs1, path, e, fs2, _, _, he, _⟩ | ⟨hce, _, file, fs1, path, fs2, _, _, _, hw⟩
  · cases he
  · exact (hno _ (htr2 hce) hw hreads).elim
  · cases he
  · cases he
  · have htr3 := htr2 hce
    subst hw
    simp only [htr3, List.append_assoc] at ht
    have ht' := List.append_cancel_left ht
    subst ht'
    simp at hcr
    obtain ⟨rfl, rfl⟩ := hcr
    subst hce
    rcases Check_inv E _ chk w w1 need none hc with ⟨e, he, _⟩ | ⟨c1, wa, hd, hs, _, _⟩
    · cases he
    · obtain ⟨hb1, hf1, _, _⟩ := getDynamoEntry_frame E _ c1 w wa _ hd
      obtain ⟨out, etag, rest, hl, hC, hsl⟩ := getS3Entry_ok_inv E c1 chk wa w1 hs
      simp only [NewChecker] at hb1 hf1
      rw [hb1, hf1] at hl
      refine ⟨rfl, by simp, by simp, ⟨chk, hchk, hf, AlreadyPresent_snd chk⟩,
        out, etag, rest, hl, hC, hsl⟩

/-- The stages before the load abort the run: when `Check`, `Download` or
`Unzip` fails, `Import` returns that stage's error, records neither a
`ProcessFile` nor a `CreateReport` call, and leaves the key-value store (hence
the row of the report name) as it was; and in every returning run that
records a `CreateReport` call, the calls of the run are the two lookups,
`Download`, `Unzip`, `ProcessFile` and then `CreateReport`, in this order. -/
theorem no_commit_when_check_download_or_unzip_fails (E : Env κ φ) (m : BillingManager)
    (date bucket : GoString) (w w1 : World κ φ) (chk : billingChecker) (need : Bool)
    (cerr : Option GoError)
    (hc : Check E (NewChecker bucket (E.GetAccountID ++ filenamePattern ++ date ++ fileExtension)) w
      = Run.ret (chk, (need, cerr), w1)) :
    (∀ e, cerr = some e →
      ∃ m1 w2 t, Import E m date bucket w = Run.ret (m1, some e, w2) ∧
        w2.kv = w.kv ∧ w2.fs = w.fs ∧ w2.trace = w.trace ++ t ∧ ∀ c ∈ t, c.isStage = false) ∧
    (∀ file e fs1, cerr = none → need = true →
      E.Download w1.fs bucket (E.GetAccountID ++ filenamePattern ++ date ++ fileExtension)
        downloadPath = ((file, some e), fs1) →
      ∃ m1 w2, Import E m date bucket w = Run.ret (m1, some e, w2) ∧
        w2.kv = w.kv ∧
        w2.trace = w.trace ++
          [Call.GetItem billingReportTableName billingReportNameField
             (E.GetAccountID ++ filenamePattern ++ date ++ fileExtension),
           Call.ListObjects bucket (E.GetAccountID ++ filenamePattern ++ date ++ fileExtension),
           Call.Download bucket (E.GetAccountID ++ filenamePattern ++ date ++ fileExtension)
             downloadPath]) ∧
    (∀ file fs1 path e fs2, cerr = none → need = true →
      E.Download w1.fs bucket (E.GetAccountID ++ filenamePattern ++ date ++ fileExtension)
        downloadPath = ((file, none), fs1) →
      E.Unzip fs1 file unzipPath = ((path, some e), fs2) →
      ∃ m1 w2, Import E m date bucket w = Run.ret (m1, some e, w2) ∧
        w2.kv = w.kv ∧
        w2.trace = w.trace ++
          [Call.GetItem billingReportTableName billingReportNameField
             (E.GetAccountID ++ filenamePattern ++ date ++ fileExtension),
           Call.ListObjects bucket (E.GetAccountID ++ filenamePattern ++ date ++ fileExtension),
           Call.Download bucket (E.GetAccountID ++ filenamePattern ++ date ++ fileExtension)
             downloadPath,
           Call.Unzip file unzipPath]) ∧
    (∀ m1 err w2 t n hash, Import E m date bucket w = Run.ret (m1, err, w2) →
      w2.trace = w.trace ++ t → Call.CreateReport n hash ∈ t →
      ∃ file path,
        t = [Call.GetItem billingReportTableName billingReportNameField
               (E.GetAccountID ++ filenamePattern ++ date ++ fileExtension),
             Call.ListObjects bucket (E.GetAccountID ++ filenamePattern ++ date ++ fileExtension),
             Call.Download bucket (E.GetAccountID ++ filenamePattern ++ date ++ fileExtension)
               downloadPath,
             Call.Unzip file unzipPath,
             Call.ProcessFile 2 (E.GetAccountID ++ filenamePattern ++ date ++ fileExtension) path,
             Call.CreateReport (E.GetAccountID ++ filenamePattern ++ date ++ fileExtension)
               chk.newMd5]) := by
  obtain ⟨hkv, hfs, hb, hf, htr, htr2⟩ := Check_world E _ chk w w1 need cerr hc
  simp only [NewChecker] at htr htr2 hb hf
  refine ⟨?_, ?_, ?_, ?_⟩
  · intro e he
    subst he
    rcases htr with htr | htr
    · refine ⟨_, _, _, Import_of_check_error E m date bucket w w1 chk need e hc, hkv, hfs, htr, ?_⟩
      intro c hcm
      simp at hcm; subst hcm; rfl
    · refine ⟨_, _, _, Import_of_check_error E m date bucket w w1 chk need e hc, hkv, hfs, htr, ?_⟩
      intro c hcm
      simp at hcm
      rcases hcm with rfl | rfl <;> rfl
  · intro file e fs1 hce hn hdl
    subst hce; subst hn
    refine ⟨_, _, Import_of_download_error E m date bucket w w1 chk file e fs1 hc hdl, hkv, ?_⟩
    simp [htr2 rfl]
  · intro file fs1 path e fs2 hce hn hdl huz
    subst hce; subst hn
    refine ⟨_, _, Import_of_unzip_error E m date bucket w w1 chk file path e fs1 fs2 hc hdl huz,
      hkv, ?_⟩
    simp [htr2 rfl]
  · intro m1 err w2 t n hash h ht hmem
    obtain ⟨chk', need', cerr', w1', hc', _, _, hcases⟩ := Import_inv E m m1 date bucket w w2 err h
    rw [hc] at hc'
    simp only [Run.ret.injEq, Prod.mk.injEq] at hc'
    obtain ⟨rfl, ⟨rfl, rfl⟩, rfl⟩ := hc'
    generalize E.GetAccountID ++ filenamePattern ++ date ++ fileExtension = N at *
    have hreads : ∀ t1 : List Call, w.trace ++ t = w.trace ++ t1 →
        (∀ c ∈ t1, c.isCreateReport = false) → False := by
      intro t1 ht1 hall
      have := List.append_cancel_left ht1
      subst this
      have := hall _ hmem
      simp [Call.isCreateReport] at this
    rcases hcases with ⟨e, _, _, hw⟩ | ⟨hce, _, _, hw⟩ | ⟨hce, _, file, e, fs1, _, _, hw⟩ |
      ⟨hce, _, file, fs1, path, e, fs2, _, _, _, hw⟩ | ⟨hce, _, file, fs1, path, fs2, _, _, _, hw⟩
    · subst hw
      rcases htr with htr | htr
      · exact (hreads _ (ht.symm.trans htr) (by
          intro c hcm; simp at hcm; subst hcm; rfl)).elim
      · exact (hreads _ (ht.symm.trans htr) (by
          intro c hcm; simp at hcm; rcases hcm with rfl | rfl <;> rfl)).elim
    · subst hw
      exact (hreads _ (ht.symm.trans (htr2 hce)) (by
        intro c hcm; simp at hcm; rcases hcm with rfl | rfl <;> rfl)).elim
    · subst hw
      refine (hreads [Call.GetItem billingReportTableName billingReportNameField N,
        Call.ListObjects bucket N, Call.Download bucket N downloadPath] ?_ (by
        intro c hcm; simp at hcm; rcases hcm with rfl | rfl | rfl <;> rfl)).elim
      rw [← ht]; simp [htr2 hce]
    · subst hw
      refine (hreads [Call.GetItem billingReportTableName billingReportNameField N,
        Call.ListObjects bucket N, Call.Download bucket N downloadPath,
        Call.Unzip file unzipPath] ?_ (by
        intro c hcm; simp at hcm; rcases hcm with rfl | rfl | rfl | rfl <;> rfl)).elim
      rw [← ht]; simp [htr2 hce]
    · subst hw
      refine ⟨file, path, ?_⟩
      have hfull : w.trace ++ t = w.trace ++
          [Call.GetItem billingReportTableName billingReportNameField N,
           Call.ListObjects bucket N, Call.Download bucket N downloadPath,
           Call.Unzip file unzipPath, Call.ProcessFile 2 N path,
           Call.CreateReport N chk.newMd5] := by
        rw [← ht]; simp [htr2 hce]
      exact List.append_cancel_left hfull

/-- C6 (evaluation at the failing input). On a listing of one result whose
contents hold two objects, `getS3Entry` returns no error and takes the first
object's fingerprint, and `Import` goes on to download, unzip, load and
commit that fingerprint. -/
theorem ambiguous_listing_is_accepted :
    getS3Entry (memEnv (listing [str "\"aaa\"", str "\"bbb\""]) none none)
        (NewChecker (str "b") demoName) (memWorld []) =
      Run.ret ({ NewChecker (str "b") demoName with newMd5 := str "aaa" }, none,
        (memWorld []).log (Call.ListObjects (str "b") demoName)) ∧
    Import (memEnv (listing [str "\"aaa\"", str "\"bbb\""]) none none) newManager
        (str "2024-03") (str "b") (memWorld []) =
      Run.ret
        ({ date := str "2024-03",
           checker := some ⟨str "b", demoName, [], str "aaa"⟩,
           downloader := some ⟨str "b", demoName⟩, loader := some ⟨2⟩, injector := true },
         none,
         { kv := [reportRow demoName (str "aaa")], fs := (),
           trace := [Call.GetItem billingReportTableName billingReportNameField demoName,
             Call.ListObjects (str "b") demoName,
             Call.Download (str "b") demoName downloadPath,
             Call.Unzip (downloadPath ++ demoName) unzipPath,
             Call.ProcessFile 2 demoName (downloadPath ++ demoName ++ str ".csv"),
             Call.CreateReport demoName (str "aaa")] }) :=
  ⟨rfl, rfl⟩

/-- C2 (evaluation at the failing input). Scenario S4: the row holds `xyz`,
the listed object has the ETag `"pqr"`, the file has two batches and the
record table refuses the second. The load ends with `WriteTimeout` after
writing batch 1; `Import` still records the `CreateReport` call, returns `nil`,
and the row of the report name holds `pqr` after the run. -/
theorem mid_load_failure_still_commits :
    specProcessFile (memWriteBatch 2) twoBatches [] =
      (some writeTimeout, [lineItem (str "r1") (str "1.0"), lineItem (str "r2") (str "2.0")]) ∧
    Import (loadEnv (listing [str "\"pqr\""]) 2 twoBatches) newManager
        (str "2024-03") (str "b")
        { kv := { reports := [reportRow demoName (str "xyz")], records := [] },
          fs := (), trace := [] } =
      Run.ret
        (importedManager (str "xyz") (str "pqr"), none,
         { kv := { reports := [reportRow demoName (str "pqr")],
                   records := [lineItem (str "r1") (str "1.0"),
                               lineItem (str "r2") (str "2.0")] },
           fs := (), trace := importCalls (str "pqr") }) :=
  ⟨rfl, rfl⟩

/-- C1 (counterexample). A store that already holds the current fingerprint:
`Import` run twice returns `nil` both times and `CreateReport` is called in
neither run. -/
theorem two_imports_without_any_commit :
    Import (memEnv (listing [str "\"abc\""]) none none) newManager (str "2024-03") (str "b")
        (memWorld [reportRow demoName (str "abc")]) =
      Run.ret
        ({ newManager with date := str "2024-03",
                           checker := some ⟨str "b", demoName, str "abc", str "abc"⟩ },
         none,
         { kv := [reportRow demoName (str "abc")], fs := (),
           trace := [Call.GetItem billingReportTableName billingReportNameField demoName,
             Call.ListObjects (str "b") demoName] }) ∧
    Import (memEnv (listing [str "\"abc\""]) none none)
        { newManager with date := str "2024-03",
                          checker := some ⟨str "b", demoName, str "abc", str "abc"⟩ }
        (str "2024-03") (str "b")
        { kv := [reportRow demoName (str "abc")], fs := (),
          trace := [Call.GetItem billingReportTableName billingReportNameField demoName,
            Call.ListObjects (str "b") demoName] } =
      Run.ret
        ({ newManager with date := str "2024-03",
                           checker := some ⟨str "b", demoName, str "abc", str "abc"⟩ },
         none,
         { kv := [reportRow demoName (str "abc")], fs := (),
           trace := [Call.GetItem billingReportTableName billingReportNameField demoName,
             Call.ListObjects (str "b") demoName,
             Call.GetItem billingReportTableName billingReportNameField demoName,
             Call.ListObjects (str "b") demoName] }) ∧
    ([Call.GetItem billingReportTableName billingReportNameField demoName,
      Call.ListObjects (str "b") demoName,
      Call.GetItem billingReportTableName billingReportNameField demoName,
      Call.ListObjects (str "b") demoName].filter Call.isCreateReport).length = 0 :=
  ⟨rfl, rfl, rfl⟩

/-- C1 (amended). Idempotence of `Import`: if `CreateReport` upserts the row
that `GetItem` reads, the listing is the same in both runs, and a first
`Import(date, bucket)` returns `nil`, then a second one from the world the
first left also returns `nil`; its `Check` reports `needsImport = false` and
it records only the two lookups, leaving the store and the files alone; and
over the two runs `CreateReport` is called once when the first run's `Check`
reported `needsImport = true`, and not at all when it reported `false`. -/
theorem Import_twice_commits_at_most_once (E : Env κ φ) (m m1 : BillingManager)
    (date bucket : GoString) (w w1 : World κ φ)
    (hup : CreateReportUpserts E)
    (h1 : Import E m date bucket w = Run.ret (m1, none, w1)) :
    ∃ chk need wc t1 m2 chk2 w2,
      Check E (NewChecker bucket (E.GetAccountID ++ filenamePattern ++ date ++ fileExtension)) w
        = Run.ret (chk, (need, none), wc) ∧
      w1.trace = w.trace ++ t1 ∧
      Check E (NewChecker bucket (E.GetAccountID ++ filenamePattern ++ date ++ fileExtension)) w1
        = Run.ret (chk2, (false, none), w2) ∧
      Import E m1 date bucket w1 = Run.ret (m2, none, w2) ∧
      w2.kv = w1.kv ∧ w2.fs = w1.fs ∧
      w2.trace = w1.trace ++
        [Call.GetItem billingReportTableName billingReportNameField
           (E.GetAccountID ++ filenamePattern ++ date ++ fileExtension),
         Call.ListObjects bucket (E.GetAccountID ++ filenamePattern ++ date ++ fileExtension)] ∧
      ((t1 ++
        [Call.GetItem billingReportTableName billingReportNameField
           (E.GetAccountID ++ filenamePattern ++ date ++ fileExtension),
         Call.ListObjects bucket (E.GetAccountID ++ filenamePattern ++ date ++ fileExtension)]
        ).filter Call.isCreateReport).length = (if need = true then 1 else 0) := by
  obtain ⟨chk, need, cerr, wc, hc, _, _, hcases⟩ := Import_inv E m m1 date bucket w w1 none h1
  obtain ⟨hkv, hfs, hb, hf, _, htr2⟩ := Check_world E _ chk w wc need cerr hc
  simp only [NewChecker] at htr2 hb hf
  have himp := fun (w2 : World κ φ) (c2 : billingChecker) => Import_of_skip E m1 date bucket w1 w2 c2
  generalize E.GetAccountID ++ filenamePattern ++ date ++ fileExtension = N at *
  rcases hcases with ⟨e, _, he, _⟩ | ⟨hce, hn, _, hw⟩ | ⟨_, _, file, e, fs1, _, he, _⟩ |
    ⟨_, _, file, fs1, path, e, fs2, _, _, he, _⟩ | ⟨hce, hn, file, fs1, path, fs2, hdl, huz, herr, hw⟩
  · cases he
  · subst hce; subst hn; subst hw
    obtain ⟨t, ht, hc2⟩ := Check_congr E _ chk w w1 w1 (false, none) hkv hc
    have htt := htr2 rfl
    rw [ht] at htt
    have := List.append_cancel_left htt
    subst this
    refine ⟨chk, false, w1, _, _, chk, _, hc, ht, hc2, himp _ chk hc2, rfl, rfl, rfl, ?_⟩
    simp [Call.isCreateReport]
  · cases he
  · cases he
  · subst hce; subst hn
    rcases Check_inv E _ chk w wc true none hc with ⟨e, he, _⟩ | ⟨c1, wa, hd, hs, _, _⟩
    · cases he
    · obtain ⟨hb1, hf1, _, _⟩ := getDynamoEntry_frame E _ c1 w wa _ hd
      obtain ⟨out, etag, rest, hl, hC, hsl⟩ := getS3Entry_ok_inv E c1 chk wa wc hs
      simp only [NewChecker] at hb1 hf1
      rw [hb1, hf1] at hl
      have hcr : E.CreateReport (E.ProcessFile wc.kv fs2 2 N path).2 N chk.newMd5 =
          (none, w1.kv) := by
        rw [hw]
        exact Prod.ext herr.symm rfl
      obtain ⟨item, hg, hmd5⟩ := hup _ _ _ _ hcr
      have hc2 := Check_after_commit E bucket N chk.newMd5 w1 item out etag rest hg hmd5 hl hC hsl
      refine ⟨chk, true, wc, [Call.GetItem billingReportTableName billingReportNameField N,
          Call.ListObjects bucket N, Call.Download bucket N downloadPath,
          Call.Unzip file unzipPath, Call.ProcessFile 2 N path,
          Call.CreateReport N chk.newMd5], _, _, _, hc, ?_, hc2, himp _ _ hc2, rfl, rfl, rfl, ?_⟩
      · rw [hw]
        simp [htr2 rfl]
      · simp [Call.isCreateReport]

/-! ## The theorems at concrete inputs -/

/-- Witness for C3: a stored fingerprint `abc` and a listed ETag `"xyz"`. -/
theorem Check_decides_by_fingerprint_inequality_witness :
    getDynamoEntry (memEnv (listing [str "\"xyz\""]) none none) (NewChecker (str "b") demoName)
        (memWorld [reportRow demoName (str "abc")]) =
      Run.ret (⟨str "b", demoName, str "abc", []⟩, none,
        { kv := [reportRow demoName (str "abc")], fs := (),
          trace := [Call.GetItem billingReportTableName billingReportNameField demoName] }) ∧
    getS3Entry (memEnv (listing [str "\"xyz\""]) none none) ⟨str "b", demoName, str "abc", []⟩
        { kv := [reportRow demoName (str "abc")], fs := (),
          trace := [Call.GetItem billingReportTableName billingReportNameField demoName] } =
      Run.ret (⟨str "b", demoName, str "abc", str "xyz"⟩, none,
        { kv := [reportRow demoName (str "abc")], fs := (),
          trace := [Call.GetItem billingReportTableName billingReportNameField demoName,
            Call.ListObjects (str "b") demoName] }) ∧
    ∃ needsIngest : Bool,
      Check (memEnv (listing [str "\"xyz\""]) none none) (NewChecker (str "b") demoName)
          (memWorld [reportRow demoName (str "abc")]) =
        Run.ret (⟨str "b", demoName, str "abc", str "xyz"⟩, (needsIngest, none),
          { kv := [reportRow demoName (str "abc")], fs := (),
            trace := [Call.GetItem billingReportTableName billingReportNameField demoName,
              Call.ListObjects (str "b") demoName] }) ∧
      (needsIngest = true ↔ str "xyz" ≠ str "abc") ∧
      (needsIngest = false ↔ str "xyz" = str "abc") :=
  ⟨rfl, rfl,
    ((Check_decides_by_fingerprint_inequality (memEnv (listing [str "\"xyz\""]) none none)
      (NewChecker (str "b") demoName) ⟨str "b", demoName, str "abc", []⟩
      (memWorld [reportRow demoName (str "abc")])
      { kv := [reportRow demoName (str "abc")], fs := (),
        trace := [Call.GetItem billingReportTableName billingReportNameField demoName] }
      none rfl).2.2
      ⟨str "b", demoName, str "abc", str "xyz"⟩
      { kv := [reportRow demoName (str "abc")], fs := (),
        trace := [Call.GetItem billingReportTableName billingReportNameField demoName,
          Call.ListObjects (str "b") demoName] }
      rfl rfl).2⟩

/-- Witness for C8: a row for the report name that has a `name` attribute and
no `md5` attribute. -/
theorem getDynamoEntry_lookup_outcomes_witness :
    (memEnv (listing [str "\"xyz\""]) none none).GetItem
        (memWorld [(demoName, [(billingReportNameField, some ⟨some demoName⟩)])]).kv
        billingReportTableName billingReportNameField demoName =
      (some ⟨[(billingReportNameField, some ⟨some demoName⟩)]⟩, none) ∧
    getDynamoEntry (memEnv (listing [str "\"xyz\""]) none none) (NewChecker (str "b") demoName)
        (memWorld [(demoName, [(billingReportNameField, some ⟨some demoName⟩)])]) =
      Run.ret (NewChecker (str "b") demoName, some noMd5Field,
        (memWorld [(demoName, [(billingReportNameField, some ⟨some demoName⟩)])]).log
          (Call.GetItem billingReportTableName billingReportNameField demoName)) ∧
    Check (memEnv (listing [str "\"xyz\""]) none none) (NewChecker (str "b") demoName)
        (memWorld [(demoName, [(billingReportNameField, some ⟨some demoName⟩)])]) =
      Run.ret (NewChecker (str "b") demoName, (false, some noMd5Field),
        (memWorld [(demoName, [(billingReportNameField, some ⟨some demoName⟩)])]).log
          (Call.GetItem billingReportTableName billingReportNameField demoName)) ∧
    noMd5Field = GoError.Errorf (str "No \x27md5\x27 field present for the entity.") :=
  ⟨rfl,
    (getDynamoEntry_lookup_outcomes (memEnv (listing [str "\"xyz\""]) none none) (str "b")
      demoName (memWorld [(demoName, [(billingReportNameField, some ⟨some demoName⟩)])])
      (some ⟨[(billingReportNameField, some ⟨some demoName⟩)]⟩) rfl).2
      [(billingReportNameField, some ⟨some demoName⟩)] rfl (List.cons_ne_nil _ _) rfl⟩

/-- Witness for C9: the ETag `"abc"`, quotes included. -/
theorem getS3Entry_strips_quotes_witness :
    (memEnv (listing [str "\"" ++ str "abc" ++ str "\""]) none none).ListObjects
        (NewChecker (str "b") demoName).s3Bucket (NewChecker (str "b") demoName).filename =
      ([some ⟨[some ⟨some (str "\"" ++ str "abc" ++ str "\"")⟩]⟩], none) ∧
    getS3Entry (memEnv (listing [str "\"" ++ str "abc" ++ str "\""]) none none)
        (NewChecker (str "b") demoName) (memWorld []) =
      Run.ret ({ NewChecker (str "b") demoName with newMd5 := str "abc" }, none,
        (memWorld []).log (Call.ListObjects (NewChecker (str "b") demoName).s3Bucket
          (NewChecker (str "b") demoName).filename)) ∧
    (AlreadyPresent { NewChecker (str "b") demoName with newMd5 := str "abc" }).2 = str "abc" :=
  ⟨rfl,
    getS3Entry_strips_quotes (memEnv (listing [str "\"" ++ str "abc" ++ str "\""]) none none)
      (NewChecker (str "b") demoName) (memWorld []) (str "abc") rfl⟩

/-- Witness for C10: an ETag of five bytes, and the slice of three. -/
theorem getS3Entry_slice_bounds_witness :
    (memEnv (listing [str "xabcy", str "z"]) none none).ListObjects
        (NewChecker (str "b") demoName).s3Bucket (NewChecker (str "b") demoName).filename =
      ([some ⟨[some ⟨some (str "xabcy")⟩, some ⟨some (str "z")⟩]⟩], none) ∧
    2 ≤ (str "xabcy").length ∧
    getS3Entry (memEnv (listing [str "xabcy", str "z"]) none none)
        (NewChecker (str "b") demoName) (memWorld []) =
      Run.ret ({ NewChecker (str "b") demoName with newMd5 := ((str "xabcy").drop 1).dropLast },
        none,
        (memWorld []).log (Call.ListObjects (NewChecker (str "b") demoName).s3Bucket
          (NewChecker (str "b") demoName).filename)) ∧
    (((str "xabcy").drop 1).dropLast).length = (str "xabcy").length - 2 :=
  ⟨rfl, by decide,
    ((getS3Entry_slice_bounds (memEnv (listing [str "xabcy", str "z"]) none none)
      (NewChecker (str "b") demoName) (memWorld [])
      ⟨[some ⟨some (str "xabcy")⟩, some ⟨some (str "z")⟩]⟩ (str "xabcy")
      [some ⟨some (str "z")⟩] rfl rfl).2.1 (by decide)).1,
    ((getS3Entry_slice_bounds (memEnv (listing [str "xabcy", str "z"]) none none)
      (NewChecker (str "b") demoName) (memWorld [])
      ⟨[some ⟨some (str "xabcy")⟩, some ⟨some (str "z")⟩]⟩ (str "xabcy")
      [some ⟨some (str "z")⟩] rfl rfl).2.1 (by decide)).2.1⟩

/-- Witness for C7: a first import of `2024-03` for account `111`. -/
theorem report_name_bit_exact_witness :
    Import (memEnv (listing [str "\"xyz\""]) none none) newManager (str "2024-03") (str "b")
        (memWorld []) =
      Run.ret (importedManager [] (str "xyz"), none,
        { kv := [reportRow demoName (str "xyz")], fs := (), trace := importCalls (str "xyz") }) ∧
    getS3Filename (memEnv (listing [str "\"xyz\""]) none none) (importedManager [] (str "xyz")) =
      (memEnv (listing [str "\"xyz\""]) none none).GetAccountID ++
        str "-aws-billing-detailed-line-items-with-resources-and-tags-" ++
        str "2024-03" ++ str ".csv.zip" ∧
    ∃ t, importCalls (str "xyz") = [] ++ t ∧
      Call.GetItem billingReportTableName billingReportNameField
        (getS3Filename (memEnv (listing [str "\"xyz\""]) none none)
          (importedManager [] (str "xyz"))) ∈ t ∧
      ∀ c ∈ t, ∀ n, c.reportName = some n →
        n = getS3Filename (memEnv (listing [str "\"xyz\""]) none none)
          (importedManager [] (str "xyz")) :=
  ⟨rfl,
    (report_name_bit_exact (memEnv (listing [str "\"xyz\""]) none none) newManager
      (importedManager [] (str "xyz")) (str "2024-03") (str "b") (memWorld [])
      { kv := [reportRow demoName (str "xyz")], fs := (), trace := importCalls (str "xyz") }
      none rfl).2.1,
    (report_name_bit_exact (memEnv (listing [str "\"xyz\""]) none none) newManager
      (importedManager [] (str "xyz")) (str "2024-03") (str "b") (memWorld [])
      { kv := [reportRow demoName (str "xyz")], fs := (), trace := importCalls (str "xyz") }
      none rfl).2.2.2⟩

/-- Witness for C4: scenario S1, the row holds `abc` and the one listed object
has the ETag `"abc"`. -/
theorem Import_skips_without_side_effects_witness :
    (memEnv (listing [str "\"abc\""]) none none).GetItem
        (memWorld [reportRow demoName (str "abc")]).kv
        billingReportTableName billingReportNameField
        ((memEnv (listing [str "\"abc\""]) none none).GetAccountID ++ filenamePattern ++
          str "2024-03" ++ fileExtension) =
      (some ⟨(reportRow demoName (str "abc")).2⟩, none) ∧
    (reportRow demoName (str "abc")).2.lookup billingReportMd5Field =
      some (some ⟨some (str "abc")⟩) ∧
    (memEnv (listing [str "\"abc\""]) none none).ListObjects (str "b")
        ((memEnv (listing [str "\"abc\""]) none none).GetAccountID ++ filenamePattern ++
          str "2024-03" ++ fileExtension) =
      ([some ⟨[some ⟨some (str "\"abc\"")⟩]⟩], none) ∧
    sliceStr (str "\"abc\"") 1 (((str "\"abc\"").length : Int) - 1) = Run.ret (str "abc") ∧
    ∃ m1 w2,
      Import (memEnv (listing [str "\"abc\""]) none none) newManager (str "2024-03") (str "b")
          (memWorld [reportRow demoName (str "abc")]) = Run.ret (m1, none, w2) ∧
      w2.kv = (memWorld [reportRow demoName (str "abc")]).kv ∧
      w2.fs = (memWorld [reportRow demoName (str "abc")]).fs ∧
      w2.trace = (memWorld [reportRow demoName (str "abc")]).trace ++
        [Call.GetItem billingReportTableName billingReportNameField
           ((memEnv (listing [str "\"abc\""]) none none).GetAccountID ++ filenamePattern ++
             str "2024-03" ++ fileExtension),
         Call.ListObjects (str "b")
           ((memEnv (listing [str "\"abc\""]) none none).GetAccountID ++ filenamePattern ++
             str "2024-03" ++ fileExtension)] ∧
      (∀ c ∈ [Call.GetItem billingReportTableName billingReportNameField
           ((memEnv (listing [str "\"abc\""]) none none).GetAccountID ++ filenamePattern ++
             str "2024-03" ++ fileExtension),
         Call.ListObjects (str "b")
           ((memEnv (listing [str "\"abc\""]) none none).GetAccountID ++ filenamePattern ++
             str "2024-03" ++ fileExtension)],
        c.isStage = false) :=
  ⟨rfl, rfl, rfl, rfl,
    Import_skips_without_side_effects (memEnv (listing [str "\"abc\""]) none none) newManager
      (str "2024-03") (str "b") (memWorld [reportRow demoName (str "abc")])
      (reportRow demoName (str "abc")).2 (str "abc") (str "\"abc\"") rfl rfl rfl rfl⟩

/-- Witness for C5: scenario S2, a first import that commits `xyz`. -/
theorem committed_fingerprint_is_observed_witness :
    Import (memEnv (listing [str "\"xyz\""]) none none) newManager (str "2024-03") (str "b")
        (memWorld []) =
      Run.ret (importedManager [] (str "xyz"), none,
        { kv := [reportRow demoName (str "xyz")], fs := (), trace := importCalls (str "xyz") }) ∧
    importCalls (str "xyz") = (memWorld []).trace ++ importCalls (str "xyz") ∧
    Call.CreateReport demoName (str "xyz") ∈ importCalls (str "xyz") ∧
    demoName = (memEnv (listing [str "\"xyz\""]) none none).GetAccountID ++ filenamePattern ++
      str "2024-03" ++ fileExtension ∧
    Call.GetItem billingReportTableName billingReportNameField demoName ∈
      importCalls (str "xyz") ∧
    Call.ListObjects (str "b") demoName ∈ importCalls (str "xyz") ∧
    (∃ chk, (importedManager [] (str "xyz")).checker = some chk ∧ chk.filename = demoName ∧
      (AlreadyPresent chk).2 = str "xyz") ∧
    ∃ out etag rest,
      (memEnv (listing [str "\"xyz\""]) none none).ListObjects (str "b") demoName =
        ([some out], none) ∧
      out.Contents = some ⟨some etag⟩ :: rest ∧
      sliceStr etag 1 ((etag.length : Int) - 1) = Run.ret (str "xyz") :=
  ⟨rfl, rfl, by simp [importCalls],
    committed_fingerprint_is_observed (memEnv (listing [str "\"xyz\""]) none none) newManager
      (importedManager [] (str "xyz")) (str "2024-03") (str "b") (memWorld [])
      { kv := [reportRow demoName (str "xyz")], fs := (), trace := importCalls (str "xyz") }
      (importCalls (str "xyz")) demoName (str "xyz") rfl rfl (by simp [importCalls])⟩

/-- The stages before the load, at a listing that fails with an error of the
blob store. -/
theorem no_commit_when_check_download_or_unzip_fails_witness :
    Check (memEnv [] (some (GoError.External 7)) none)
        (NewChecker (str "b")
          ((memEnv [] (some (GoError.External 7)) none).GetAccountID ++ filenamePattern ++
            str "2024-03" ++ fileExtension))
        (memWorld [reportRow demoName (str "abc")]) =
      Run.ret (⟨str "b", demoName, str "abc", []⟩, (false, some (GoError.External 7)),
        { kv := [reportRow demoName (str "abc")], fs := (), trace := lookupCalls }) ∧
    ∃ m1 w2 t,
      Import (memEnv [] (some (GoError.External 7)) none) newManager (str "2024-03") (str "b")
          (memWorld [reportRow demoName (str "abc")]) =
        Run.ret (m1, some (GoError.External 7), w2) ∧
      w2.kv = (memWorld [reportRow demoName (str "abc")]).kv ∧
      w2.fs = (memWorld [reportRow demoName (str "abc")]).fs ∧
      w2.trace = (memWorld [reportRow demoName (str "abc")]).trace ++ t ∧
      ∀ c ∈ t, c.isStage = false :=
  ⟨rfl,
    (no_commit_when_check_download_or_unzip_fails (memEnv [] (some (GoError.External 7)) none)
      newManager (str "2024-03") (str "b") (memWorld [reportRow demoName (str "abc")])
      { kv := [reportRow demoName (str "abc")], fs := (), trace := lookupCalls }
      ⟨str "b", demoName, str "abc", []⟩ false (some (GoError.External 7)) rfl).1
      (GoError.External 7) rfl⟩

/-- Witness for C1 (amended): scenario S2 followed by a second run. -/
theorem Import_twice_commits_at_most_once_witness :
    CreateReportUpserts (memEnv (listing [str "\"xyz\""]) none none) ∧
    Import (memEnv (listing [str "\"xyz\""]) none none) newManager (str "2024-03") (str "b")
        (memWorld []) =
      Run.ret (importedManager [] (str "xyz"), none,
        { kv := [reportRow demoName (str "xyz")], fs := (), trace := importCalls (str "xyz") }) ∧
    ∃ chk need wc t1 m2 chk2 w2,
      Check (memEnv (listing [str "\"xyz\""]) none none)
          (NewChecker (str "b")
            ((memEnv (listing [str "\"xyz\""]) none none).GetAccountID ++ filenamePattern ++
              str "2024-03" ++ fileExtension))
          (memWorld []) = Run.ret (chk, (need, none), wc) ∧
      importCalls (str "xyz") = (memWorld []).trace ++ t1 ∧
      Check (memEnv (listing [str "\"xyz\""]) none none)
          (NewChecker (str "b")
            ((memEnv (listing [str "\"xyz\""]) none none).GetAccountID ++ filenamePattern ++
              str "2024-03" ++ fileExtension))
          { kv := [reportRow demoName (str "xyz")], fs := (), trace := importCalls (str "xyz") }
        = Run.ret (chk2, (false, none), w2) ∧
      Import (memEnv (listing [str "\"xyz\""]) none none) (importedManager [] (str "xyz"))
          (str "2024-03") (str "b")
          { kv := [reportRow demoName (str "xyz")], fs := (), trace := importCalls (str "xyz") }
        = Run.ret (m2, none, w2) ∧
      w2.kv = [reportRow demoName (str "xyz")] ∧ w2.fs = () ∧
      w2.trace = importCalls (str "xyz") ++
        [Call.GetItem billingReportTableName billingReportNameField
           ((memEnv (listing [str "\"xyz\""]) none none).GetAccountID ++ filenamePattern ++
             str "2024-03" ++ fileExtension),
         Call.ListObjects (str "b")
           ((memEnv (listing [str "\"xyz\""]) none none).GetAccountID ++ filenamePattern ++
             str "2024-03" ++ fileExtension)] ∧
      ((t1 ++
        [Call.GetItem billingReportTableName billingReportNameField
           ((memEnv (listing [str "\"xyz\""]) none none).GetAccountID ++ filenamePattern ++
             str "2024-03" ++ fileExtension),
         Call.ListObjects (str "b")
           ((memEnv (listing [str "\"xyz\""]) none none).GetAccountID ++ filenamePattern ++
             str "2024-03" ++ fileExtension)]
        ).filter Call.isCreateReport).length = (if need = true then 1 else 0) :=
  ⟨memEnv_upserts _ _ _, rfl,
    Import_twice_commits_at_most_once (memEnv (listing [str "\"xyz\""]) none none) newManager
      (importedManager [] (str "xyz")) (str "2024-03") (str "b") (memWorld [])
      { kv := [reportRow demoName (str "xyz")], fs := (), trace := importCalls (str "xyz") }
      (memEnv_upserts _ _ _) rfl⟩

end Billing
